import Mathlib

/-!
Verification of the hint/reveal progression engine of the "Before & Aftordle"
word-puzzle repository.

Server side: the Hint Policy, a pure function embedded from
`generateWordSpecificHint` (and its inner helper `generateLetterArray`) in
`src/backend/routes/puzzles.js`.

Client side: the Reveal State Tracker, embedded from `initializeWordStates`,
`handleWordClick` and `checkLinkingWordUnlock` in `src/frontend/game.js`
(the "G" step), and from `updateWordState` plus
`checkLinkingWordAvailability` in the second client variant (the "P" step).

Strings are modelled as `List Char`; JS array index access out of range is
modelled with explicit defaults (the UI never produces such accesses).
-/

/-- Reveal stage of a word: the `state` strings `'empty'`, `'first_letter'`,
`'full_word'` used throughout the JS. -/
inductive Stage where
  | empty
  | first_letter
  | full_word
deriving DecidableEq

/-- The JS letter test `/[A-Za-z]/.test(char)` used by `generateLetterArray`. -/
def jsIsLetter (c : Char) : Bool :=
  ('A' ≤ c && c ≤ 'Z') || ('a' ≤ c && c ≤ 'z')

/-- One cell pushed by `generateLetterArray`: `{ char, isPunctuation }`. -/
structure LetterCell where
  char : Char
  isPunctuation : Bool
deriving DecidableEq

/-- Loop body of `generateLetterArray` (puzzles.js lines 204-229): walks the
word left to right carrying the `firstLetterRevealed` flag. -/
def genLettersAux (revealType : Stage) : List Char → Bool → List LetterCell
  | [], _ => []
  | c :: rest, flr =>
    if !(jsIsLetter c) then
      ⟨c, true⟩ :: genLettersAux revealType rest flr
    else if revealType = Stage.full_word then
      ⟨c.toUpper, false⟩ :: genLettersAux revealType rest flr
    else if revealType = Stage.first_letter ∧ flr = false then
      ⟨c.toUpper, false⟩ :: genLettersAux revealType rest true
    else
      ⟨'_', false⟩ :: genLettersAux revealType rest flr

/-- `generateLetterArray(word, revealType)` from puzzles.js: the
`firstLetterRevealed` flag starts `false`. -/
def generateLetterArray (word : List Char) (revealType : Stage) : List LetterCell :=
  genLettersAux revealType word false

/-- `toDisplayArray` from puzzles.js: `letterArray.map(l => l.char)`. -/
def toDisplayArray (cells : List LetterCell) : List Char :=
  cells.map (fun l => l.char)

/-- JS `answer.split(' ')`: splits on every single space, keeping empty
pieces; the result is always nonempty. -/
def splitOnSpace : List Char → List (List Char)
  | [] => [[]]
  | c :: rest =>
    let r := splitOnSpace rest
    if c = ' ' then [] :: r
    else (c :: r.headD []) :: r.tail

/-- Scan behind `words.findIndex((word, index) => word === linkingWord &&
index > 0 && index < words.length - 1)`.  `i + 1 < total` is the Nat form of
the JS `index < words.length - 1` (the word list is nonempty). -/
def linkScan (linkingWord : List Char) (total : Nat) : Nat → List (List Char) → Option Nat
  | _, [] => none
  | i, w :: rest =>
    if w = linkingWord ∧ 0 < i ∧ i + 1 < total then some i
    else linkScan linkingWord total (i + 1) rest

/-- The `linkIndex` computed at the top of `generateWordSpecificHint`,
as an `Option Nat` instead of the JS `-1` sentinel. -/
def linkIndexOf (words : List (List Char)) (linkingWord : List Char) : Option Nat :=
  linkScan linkingWord words.length 0 words

/-- Helper for the JS `words.map((word, index) => ...)` idiom: map with the
running index, starting at `start`. -/
def mapIdxFrom {α β : Type} (f : Nat → α → β) : Nat → List α → List β
  | _, [] => []
  | i, a :: rest => f i a :: mapIdxFrom f (i + 1) rest

/-- `l.map((a, i) => f i a)` in JS. -/
def jsMapIdx {α β : Type} (f : Nat → α → β) (l : List α) : List β :=
  mapIdxFrom f 0 l

/-- One element of the `word_structure` array the server returns. -/
structure WordEntry where
  word_index : Nat
  length : Nat
  is_linking : Bool
  letters : List Char
  state : Stage
  clickable : Bool
deriving DecidableEq

/-- Result of `generateWordSpecificHint`: a validation error object, the
initial structure reveal, the zero-cost linking-availability confirmation, or
a word-specific reveal with its `revealed_word` payload. -/
inductive HintResult where
  | err (msg : String)
  | structureReveal (word_structure : List WordEntry) (penalty : Nat)
  | linkingCheck (linking_available : Bool) (penalty : Nat)
  | reveal (hint_type : Stage) (word_structure : List WordEntry) (penalty : Nat)
      (revealed_index : Nat) (revealed_word : List Char) (revealed_is_linking : Bool)
deriving DecidableEq

/-- Points the route charges for a result; an error response carries no
`penalty` field and charges nothing. -/
def chargedPenalty : HintResult → Nat
  | HintResult.err _ => 0
  | HintResult.structureReveal _ p => p
  | HintResult.linkingCheck _ p => p
  | HintResult.reveal _ _ p _ _ _ => p

/-- The `word_structure` array of a result (empty for results without one). -/
def wordStructureOf : HintResult → List WordEntry
  | HintResult.structureReveal ws _ => ws
  | HintResult.reveal _ ws _ _ _ _ => ws
  | _ => []

/-- Entry built for each word by the structure branch of
`generateWordSpecificHint` (puzzles.js lines 236-253). -/
def structureEntry (linkIdx : Option Nat) (i : Nat) (w : List Char) : WordEntry :=
  { word_index := i
    length := w.length
    is_linking := decide (linkIdx = some i)
    letters := toDisplayArray (generateLetterArray w Stage.empty)
    state := Stage.empty
    clickable := decide (¬linkIdx = some i) }

/-- Entry built for each word by the word-hint branch of
`generateWordSpecificHint` (puzzles.js lines 281-312): the targeted word gets
the requested reveal applied, every other word is returned as blanks. -/
def hintedEntry (linkIdx : Option Nat) (wIdx : Nat) (rt : Stage) (i : Nat) (w : List Char) : WordEntry :=
  if i = wIdx then
    { word_index := i
      length := w.length
      is_linking := decide (linkIdx = some i)
      letters := toDisplayArray (generateLetterArray w rt)
      state := rt
      clickable := decide (rt = Stage.first_letter) }
  else
    { word_index := i
      length := w.length
      is_linking := decide (linkIdx = some i)
      letters := toDisplayArray (generateLetterArray w Stage.empty)
      state := Stage.empty
      clickable := decide (¬linkIdx = some i) }

/-- `generateWordSpecificHint(answer, linkingWord, wordIndex, hintType)` from
puzzles.js lines 197-334.  `wordIndex === undefined` is `none`; the JS number
is an `Int` so negative indices validate as in the source.  The penalty
computation mirrors the three-branch `if` of lines 314-322. -/
def generateWordSpecificHint (answer : List Char) (linkingWord : List Char)
    (wordIndex : Option Int) (hintType : String) : HintResult :=
  let words := splitOnSpace answer
  let linkIdx := linkIndexOf words linkingWord
  match wordIndex with
  | none =>
    HintResult.structureReveal (jsMapIdx (structureEntry linkIdx) words) 5
  | some wi =>
    if wi < 0 ∨ (words.length : Int) ≤ wi then
      HintResult.err "Invalid word_index"
    else if hintType ≠ "first_letter" ∧ hintType ≠ "full_word" ∧
        hintType ≠ "check_linking_available" then
      HintResult.err "Invalid hint_type. Must be first_letter, full_word, or check_linking_available"
    else if hintType = "check_linking_available" then
      HintResult.linkingCheck true 0
    else
      let wIdx := wi.toNat
      let rt := if hintType = "first_letter" then Stage.first_letter else Stage.full_word
      let targetWord := words.getD wIdx []
      let isLinking := decide (linkIdx = some wIdx)
      let pen : Nat :=
        if isLinking = true ∧ rt = Stage.first_letter then 5
        else if isLinking = true ∧ rt = Stage.full_word then 5
        else 3
      HintResult.reveal rt (jsMapIdx (hintedEntry linkIdx wIdx rt) words) pen wIdx
        targetWord isLinking

/-- Display character of a blank (stage `empty`) cell: letters show as the
placeholder `'_'`, punctuation shows itself. -/
def blankChar (c : Char) : Char :=
  if jsIsLetter c then '_' else c

/-- Display character of a fully revealed cell: letters upper-cased,
punctuation unchanged. -/
def fullRevealChar (c : Char) : Char :=
  if jsIsLetter c then c.toUpper else c

/-- Client-held per-word reveal state (one element of
`wordStates[currentQuestion]` in the front end). -/
structure WordState where
  word_index : Nat
  length : Nat
  is_linking : Bool
  state : Stage
  letters : List Char
  clickable : Bool
deriving DecidableEq

/-- Default used where the JS would read an out-of-range array slot; its
`clickable := false` makes such a click a no-op in the step functions. -/
def defaultWS : WordState :=
  { word_index := 0, length := 0, is_linking := false, state := Stage.empty,
    letters := [], clickable := false }

/-- `initializeWordStates(wordStructure)` from game.js lines 245-274 (the
second client variant is identical): every word starts at stage `empty` with
every character a `'_'` placeholder, and `clickable := !is_linking`. -/
def initializeWordStates (wordStructure : List WordEntry) : List WordState :=
  wordStructure.map (fun wd =>
    { word_index := wd.word_index
      length := wd.length
      is_linking := wd.is_linking
      state := Stage.empty
      letters := List.replicate wd.length '_'
      clickable := !wd.is_linking })

/-- In-place mutation of one array slot, as a functional update; out-of-range
indices leave the list unchanged. -/
def modifyAt (f : WordState → WordState) : List WordState → Nat → List WordState
  | [], _ => []
  | w :: ws, 0 => f w :: ws
  | w :: ws, i + 1 => w :: modifyAt f ws i

/-- The client test `currentWordStates.filter(word => !word.is_linking)
.every(word => word.state === 'full_word')`. -/
def allNonLinkingFull (ws : List WordState) : Bool :=
  (ws.filter (fun w => !w.is_linking)).all (fun w => decide (w.state = Stage.full_word))

/-- Index of the first entry with `is_linking` (the JS `find` / `findIndex`
on `word.is_linking`). -/
def findLinkingIdx : List WordState → Option Nat
  | [] => none
  | w :: ws => if w.is_linking then some 0 else (findLinkingIdx ws).map (· + 1)

/-- `checkLinkingWordUnlock()` from game.js lines 348-367: when every
non-linking word is fully revealed, the (first) linking word is made
clickable.  Setting `clickable := true` when it already is reproduces the
JS guard that merely skips the re-render. -/
def checkLinkingWordUnlock (ws : List WordState) : List WordState :=
  if allNonLinkingFull ws then
    match findLinkingIdx ws with
    | some li => modifyAt (fun w => { w with clickable := true }) ws li
    | none => ws
  else ws

/-- The `first_letter` update block of `handleWordClick` (game.js lines
326-331): `c` is the character the client writes into slot 0 (computed there
from the response as `hintData.letter || hintData.word[0]`). -/
def applyFirstLetterG (ws : List WordState) (i : Nat) (c : Char) : List WordState :=
  modifyAt (fun w => { w with state := Stage.first_letter, letters := w.letters.set 0 c }) ws i

/-- The `full_word` update block of `handleWordClick` (game.js lines
333-343): record the revealed word, lock the word, then run
`checkLinkingWordUnlock`. -/
def applyFullWordG (ws : List WordState) (i : Nat) (word : List Char) : List WordState :=
  checkLinkingWordUnlock
    (modifyAt (fun w => { w with state := Stage.full_word, letters := word, clickable := false })
      ws i)

/-- `handleWordClick(wordIndex)` from game.js lines 276-346, with the server
round trip abstracted: `word` is the `revealed_word.word` of the response and
`c` the character written for a first-letter reveal.  A non-clickable or
already fully revealed word is a local no-op. -/
def handleWordClickG (ws : List WordState) (i : Nat) (word : List Char) (c : Char) :
    List WordState :=
  let w := ws.getD i defaultWS
  if w.clickable = false then ws
  else if w.state = Stage.empty then applyFirstLetterG ws i c
  else if w.state = Stage.first_letter then applyFullWordG ws i word
  else ws

/-- `updateWordState(wordIndex, hintData)` of the second client variant
(part_001 lines 364-385): branches on the response `hint_type`; the
first-letter branch writes `revealed_word.word[0]` into slot 0 and sets
`clickable := true`. -/
def updateWordState (ws : List WordState) (i : Nat) (ht : Stage) (word : List Char) :
    List WordState :=
  if ht = Stage.first_letter then
    modifyAt (fun w =>
      { w with
          state := Stage.first_letter
          letters := w.letters.set 0 (word.headD '_')
          clickable := true }) ws i
  else if ht = Stage.full_word then
    modifyAt (fun w => { w with state := Stage.full_word, letters := word, clickable := false })
      ws i
  else ws

/-- `checkLinkingWordAvailability()` of the second client variant (part_001
lines 387-401): the linking word's `clickable` is recomputed (not only set)
after every hint. -/
def checkLinkingWordAvailability (ws : List WordState) : List WordState :=
  match findLinkingIdx ws with
  | none => ws
  | some li => modifyAt (fun w => { w with clickable := allNonLinkingFull ws }) ws li

/-- `handleWordClick` of the second client variant (part_001 lines 311-362):
the requested kind is derived from the current stage, `updateWordState`
applies the response, then the linking word's availability is recomputed. -/
def handleWordClickP (ws : List WordState) (i : Nat) (word : List Char) : List WordState :=
  let w := ws.getD i defaultWS
  if w.clickable = false then ws
  else if w.state = Stage.empty then
    checkLinkingWordAvailability (updateWordState ws i Stage.first_letter word)
  else if w.state = Stage.first_letter then
    checkLinkingWordAvailability (updateWordState ws i Stage.full_word word)
  else ws

/-- One click in the game.js client: the clicked index, the revealed word of
the server response and the first-letter character the client writes. -/
structure GEvent where
  idx : Nat
  word : List Char
  firstChar : Char
deriving DecidableEq

/-- Run a sequence of clicks through the game.js client. -/
def runG (ws : List WordState) : List GEvent → List WordState
  | [] => ws
  | e :: es => runG (handleWordClickG ws e.idx e.word e.firstChar) es

/-- One click in the second client variant. -/
structure PEvent where
  idx : Nat
  word : List Char
deriving DecidableEq

/-- Run a sequence of clicks through the second client variant. -/
def runP (ws : List WordState) : List PEvent → List WordState
  | [] => ws
  | e :: es => runP (handleWordClickP ws e.idx e.word) es

/-- Successor along the reveal progression; `full_word` is terminal. -/
def stageSucc : Stage → Stage
  | Stage.empty => Stage.first_letter
  | Stage.first_letter => Stage.full_word
  | Stage.full_word => Stage.full_word

/-- Numeric rank of a stage along `empty → first_letter → full_word`. -/
def stageRank : Stage → Nat
  | Stage.empty => 0
  | Stage.first_letter => 1
  | Stage.full_word => 2

/-- The answer string a valid clue stores: its words joined by single
spaces. -/
def joinWords : List (List Char) → List Char
  | [] => []
  | [w] => w
  | w :: ws => w ++ ' ' :: joinWords ws

/-! ### Tracker invariants -/

/-- Every non-linking word is clickable exactly while it has not reached
`full_word`. -/
def nonLinkOK (ws : List WordState) : Prop :=
  ∀ i, i < ws.length → (ws.getD i defaultWS).is_linking = false →
    ((ws.getD i defaultWS).clickable = true ↔ (ws.getD i defaultWS).state ≠ Stage.full_word)

/-- The linking word is clickable exactly when every non-linking word has
reached `full_word`. -/
def linkOK (ws : List WordState) : Prop :=
  ∀ i, i < ws.length → (ws.getD i defaultWS).is_linking = true →
    (ws.getD i defaultWS).clickable = allNonLinkingFull ws

/-- At most one entry is marked as the linking word. -/
def oneLink (ws : List WordState) : Prop :=
  ∀ i, i < ws.length → ∀ j, j < ws.length → (ws.getD i defaultWS).is_linking = true →
    (ws.getD j defaultWS).is_linking = true → i = j

/-- If a linking word exists, some non-linking word exists too (a linking
word sits strictly between two phrase words). -/
def hasNonLink (ws : List WordState) : Prop :=
  (∃ i, i < ws.length ∧ (ws.getD i defaultWS).is_linking = true) →
    ∃ j, j < ws.length ∧ (ws.getD j defaultWS).is_linking = false

def trackerOK (ws : List WordState) : Prop :=
  oneLink ws ∧ hasNonLink ws ∧ nonLinkOK ws ∧ linkOK ws

/-- Default element for reading `WordEntry` lists out of range. -/
def defaultWE : WordEntry :=
  { word_index := 0, length := 0, is_linking := false, letters := [],
    state := Stage.empty, clickable := false }

/-! ### Letter-array lemmas -/

lemma genLettersAux_empty (w : List Char) : ∀ flr,
    genLettersAux Stage.empty w flr =
      w.map (fun c => if jsIsLetter c then LetterCell.mk '_' false else LetterCell.mk c true) := by
  induction w with
  | nil => intro flr; rfl
  | cons c rest ih =>
    intro flr
    cases hc : jsIsLetter c <;> simp [genLettersAux, hc, ih]

lemma genLettersAux_full (w : List Char) : ∀ flr,
    genLettersAux Stage.full_word w flr =
      w.map (fun c =>
        if jsIsLetter c then LetterCell.mk c.toUpper false else LetterCell.mk c true) := by
  induction w with
  | nil => intro flr; rfl
  | cons c rest ih =>
    intro flr
    cases hc : jsIsLetter c <;> simp [genLettersAux, hc, ih]

lemma genLettersAux_first_done (w : List Char) :
    genLettersAux Stage.first_letter w true =
      w.map (fun c => if jsIsLetter c then LetterCell.mk '_' false else LetterCell.mk c true) := by
  induction w with
  | nil => rfl
  | cons c rest ih =>
    cases hc : jsIsLetter c <;> simp [genLettersAux, hc, ih]

lemma genLettersAux_first (p : List Char) (hp : ∀ x ∈ p, jsIsLetter x = false)
    (c : Char) (hc : jsIsLetter c = true) (t : List Char) :
    genLettersAux Stage.first_letter (p ++ c :: t) false =
      p.map (fun x => LetterCell.mk x true) ++ LetterCell.mk c.toUpper false ::
        t.map (fun x =>
          if jsIsLetter x then LetterCell.mk '_' false else LetterCell.mk x true) := by
  induction p with
  | nil => simp [genLettersAux, hc, genLettersAux_first_done]
  | cons a p ih =>
    have ha : jsIsLetter a = false := hp a (by simp)
    simpa [genLettersAux, ha] using ih (fun x hx => hp x (by simp [hx]))

lemma display_empty (w : List Char) :
    toDisplayArray (generateLetterArray w Stage.empty) = w.map blankChar := by
  rw [generateLetterArray, genLettersAux_empty]
  simp only [toDisplayArray, List.map_map]
  refine List.map_congr_left ?_
  intro c _
  by_cases hc : jsIsLetter c <;> simp [blankChar, hc, Function.comp]

lemma display_full (w : List Char) :
    toDisplayArray (generateLetterArray w Stage.full_word) = w.map fullRevealChar := by
  rw [generateLetterArray, genLettersAux_full]
  simp only [toDisplayArray, List.map_map]
  refine List.map_congr_left ?_
  intro c _
  by_cases hc : jsIsLetter c <;> simp [fullRevealChar, hc, Function.comp]

lemma display_first (p : List Char) (hp : ∀ x ∈ p, jsIsLetter x = false)
    (c : Char) (hc : jsIsLetter c = true) (t : List Char) :
    toDisplayArray (generateLetterArray (p ++ c :: t) Stage.first_letter) =
      p ++ c.toUpper :: t.map blankChar := by
  rw [generateLetterArray, genLettersAux_first p hp c hc t]
  simp only [toDisplayArray, List.map_append, List.map_cons, List.map_map]
  have h1 : List.map ((fun l => LetterCell.char l) ∘ fun x => LetterCell.mk x true) p = p := by
    have hid : ((fun l => LetterCell.char l) ∘ fun x => LetterCell.mk x true) = fun x => x := rfl
    rw [hid]
    simp
  have h2 : List.map ((fun l => LetterCell.char l) ∘ fun x =>
      if jsIsLetter x then LetterCell.mk '_' false else LetterCell.mk x true) t =
        List.map blankChar t := by
    refine List.map_congr_left ?_
    intro x _
    by_cases hx : jsIsLetter x <;> simp [blankChar, hx, Function.comp]
  rw [h1, h2]

lemma length_genLettersAux (rt : Stage) (w : List Char) : ∀ flr,
    (genLettersAux rt w flr).length = w.length := by
  induction w with
  | nil => intro flr; rfl
  | cons c rest ih =>
    intro flr
    by_cases hc : jsIsLetter c <;>
      rcases rt with _ | _ | _ <;>
        cases flr <;> simp [genLettersAux, hc, ih]

/-- Every non-letter (punctuation) character displays as itself, at every
reveal stage and whatever the `firstLetterRevealed` flag. -/
lemma display_punct (rt : Stage) (w : List Char) : ∀ flr i,
    jsIsLetter (w.getD i ' ') = false →
      (toDisplayArray (genLettersAux rt w flr)).getD i ' ' = w.getD i ' ' := by
  induction w with
  | nil => intro flr i h; rfl
  | cons c rest ih =>
    intro flr i h
    match i with
    | 0 =>
      simp only [List.getD_cons_zero] at h
      rcases rt with _ | _ | _ <;> simp [genLettersAux, toDisplayArray, h]
    | i + 1 =>
      simp only [List.getD_cons_succ] at h
      by_cases hc : jsIsLetter c <;>
        rcases rt with _ | _ | _ <;>
          cases flr <;>
            simpa [genLettersAux, toDisplayArray, hc] using ih _ i h

/-! ### Split / join lemmas -/

lemma splitOnSpace_no_space (w : List Char) (hw : ∀ c ∈ w, c ≠ ' ') :
    splitOnSpace w = [w] := by
  induction w with
  | nil => rfl
  | cons c rest ih =>
    have hc : c ≠ ' ' := hw c (by simp)
    have := ih (fun x hx => hw x (by simp [hx]))
    simp [splitOnSpace, hc, this]

lemma splitOnSpace_word_append (w : List Char) (hw : ∀ c ∈ w, c ≠ ' ') (t : List Char) :
    splitOnSpace (w ++ ' ' :: t) = w :: splitOnSpace t := by
  induction w with
  | nil => simp [splitOnSpace]
  | cons c rest ih =>
    have hc : c ≠ ' ' := hw c (by simp)
    have := ih (fun x hx => hw x (by simp [hx]))
    simp [splitOnSpace, hc, this]

lemma splitOnSpace_joinWords : ∀ (ws : List (List Char)), ws ≠ [] →
    (∀ w ∈ ws, ∀ c ∈ w, c ≠ ' ') → splitOnSpace (joinWords ws) = ws
  | [], h, _ => absurd rfl h
  | [w], _, hw => by
    simp only [joinWords]
    exact splitOnSpace_no_space w (hw w (by simp))
  | w :: x :: xs, _, hw => by
    have hrec := splitOnSpace_joinWords (x :: xs) (by simp)
      (fun y hy => hw y (List.mem_cons_of_mem w hy))
    simp only [joinWords]
    rw [splitOnSpace_word_append w (hw w (by simp)), hrec]

lemma length_splitOnSpace_joinWords (ws : List (List Char)) (h : ws ≠ [])
    (hw : ∀ w ∈ ws, ∀ c ∈ w, c ≠ ' ') :
    (splitOnSpace (joinWords ws)).length = ws.length := by
  rw [splitOnSpace_joinWords ws h hw]

/-! ### Indexed-map lemmas -/

lemma length_mapIdxFrom {α β : Type} (f : Nat → α → β) :
    ∀ (l : List α) (s : Nat), (mapIdxFrom f s l).length = l.length
  | [], _ => rfl
  | _ :: rest, s => by simp [mapIdxFrom, length_mapIdxFrom f rest (s + 1)]

lemma length_jsMapIdx {α β : Type} (f : Nat → α → β) (l : List α) :
    (jsMapIdx f l).length = l.length :=
  length_mapIdxFrom f l 0

lemma getD_mapIdxFrom {α β : Type} (f : Nat → α → β) (dα : α) (dβ : β) :
    ∀ (l : List α) (s i : Nat), i < l.length →
      (mapIdxFrom f s l).getD i dβ = f (s + i) (l.getD i dα)
  | [], _, i, h => absurd h (by simp)
  | a :: rest, s, 0, _ => by simp [mapIdxFrom]
  | a :: rest, s, i + 1, h => by
    have := getD_mapIdxFrom f dα dβ rest (s + 1) i (by simpa using h)
    simp only [mapIdxFrom, List.getD_cons_succ, this]
    ring_nf

lemma getD_jsMapIdx {α β : Type} (f : Nat → α → β) (dα : α) (dβ : β) (l : List α)
    (i : Nat) (h : i < l.length) :
    (jsMapIdx f l).getD i dβ = f i (l.getD i dα) := by
  simpa using getD_mapIdxFrom f dα dβ l 0 i h

/-! ### Link-index lemmas -/

lemma linkScan_eq_none (lw : List Char) (total : Nat) :
    ∀ (l : List (List Char)) (s : Nat),
      (∀ k, k < l.length → ¬(l.getD k [] = lw ∧ 0 < s + k ∧ s + k + 1 < total)) →
      linkScan lw total s l = none
  | [], _, _ => rfl
  | w :: rest, s, h => by
    have h0 := h 0 (by simp)
    simp only [List.getD_cons_zero, Nat.add_zero] at h0
    have hrec := linkScan_eq_none lw total rest (s + 1) (by
      intro k hk
      have := h (k + 1) (by simpa using Nat.succ_lt_succ hk)
      simpa [Nat.add_assoc, Nat.add_comm 1 k, Nat.add_left_comm] using this)
    simp [linkScan, h0, hrec]

lemma linkIndexOf_eq_none (words : List (List Char)) (lw : List Char)
    (h : ∀ k, k < words.length → ¬(words.getD k [] = lw ∧ 0 < k ∧ k + 1 < words.length)) :
    linkIndexOf words lw = none := by
  refine linkScan_eq_none lw words.length words 0 ?_
  simpa using h

lemma linkScan_eq_some (lw : List Char) (total : Nat) :
    ∀ (l : List (List Char)) (s k : Nat), s ≤ k → k - s < l.length →
      (l.getD (k - s) [] = lw ∧ 0 < k ∧ k + 1 < total) →
      (∀ j, s ≤ j → j < k → ¬(l.getD (j - s) [] = lw ∧ 0 < j ∧ j + 1 < total)) →
      linkScan lw total s l = some k
  | [], s, k, _, hlt, _, _ => absurd hlt (by simp)
  | w :: rest, s, k, hsk, hlt, hk, hmin => by
    rcases Nat.eq_or_lt_of_le hsk with heq | hlt'
    · subst heq
      simp only [Nat.sub_self, List.getD_cons_zero] at hk
      simp [linkScan, hk.1, hk.2.1, hk.2.2]
    · have hne : ¬(w = lw ∧ 0 < s ∧ s + 1 < total) := by
        have := hmin s (Nat.le_refl s) hlt'
        simpa using this
      have hrec := linkScan_eq_some lw total rest (s + 1) k hlt'
        (by
          have h1 : k - s = (k - (s + 1)) + 1 := by omega
          simp only [h1] at hlt
          simpa using Nat.lt_of_succ_lt_succ (by simpa using hlt))
        (by
          have h1 : k - s = (k - (s + 1)) + 1 := by omega
          rw [h1, List.getD_cons_succ] at hk
          exact hk)
        (by
          intro j hj1 hj2
          have h2 : j - s = (j - (s + 1)) + 1 := by omega
          have := hmin j (by omega) hj2
          rw [h2, List.getD_cons_succ] at this
          exact this)
      simp [linkScan, hne, hrec]

lemma linkIndexOf_eq_some (words : List (List Char)) (lw : List Char) (k : Nat)
    (hk : words.getD k [] = lw ∧ 0 < k ∧ k + 1 < words.length)
    (huniq : ∀ j, words.getD j [] = lw → 0 < j → j + 1 < words.length → j = k) :
    linkIndexOf words lw = some k := by
  refine linkScan_eq_some lw words.length words 0 k (Nat.zero_le k) (by omega) ?_ ?_
  · simpa using hk
  · intro j _ hjk
    simp only [Nat.sub_zero]
    rintro ⟨h1, h2, h3⟩
    exact absurd (huniq j h1 h2 h3) (Nat.ne_of_lt hjk)

/-! ### Tracker-state list lemmas -/

lemma length_modifyAt (f : WordState → WordState) :
    ∀ (l : List WordState) (i : Nat), (modifyAt f l i).length = l.length
  | [], _ => rfl
  | _ :: _, 0 => rfl
  | _ :: rest, i + 1 => by simp [modifyAt, length_modifyAt f rest i]

lemma getD_modifyAt_self (f : WordState → WordState) :
    ∀ (l : List WordState) (i : Nat), i < l.length →
      (modifyAt f l i).getD i defaultWS = f (l.getD i defaultWS)
  | [], i, h => absurd h (by simp)
  | w :: rest, 0, _ => rfl
  | w :: rest, i + 1, h => by
    simpa [modifyAt] using getD_modifyAt_self f rest i (by simpa using h)

lemma getD_modifyAt_ne (f : WordState → WordState) :
    ∀ (l : List WordState) (i j : Nat), j ≠ i →
      (modifyAt f l i).getD j defaultWS = l.getD j defaultWS
  | [], _, _, _ => rfl
  | w :: rest, 0, 0, h => absurd rfl h
  | w :: rest, 0, j + 1, _ => by simp [modifyAt]
  | w :: rest, i + 1, 0, _ => by simp [modifyAt]
  | w :: rest, i + 1, j + 1, h => by
    simpa [modifyAt] using getD_modifyAt_ne f rest i j (by omega)

lemma findLinkingIdx_some :
    ∀ (l : List WordState) (li : Nat), findLinkingIdx l = some li →
      li < l.length ∧ (l.getD li defaultWS).is_linking = true
  | [], li, h => by simp [findLinkingIdx] at h
  | w :: rest, li, h => by
    by_cases hw : w.is_linking
    · simp [findLinkingIdx, hw] at h
      subst h
      simpa using hw
    · simp only [findLinkingIdx, hw, if_neg, Bool.false_eq_true, if_false] at h
      rcases Option.map_eq_some'.1 h with ⟨m, hm, hm2⟩
      have hrec := findLinkingIdx_some rest m hm
      rw [← hm2]
      simpa using hrec

lemma findLinkingIdx_none :
    ∀ (l : List WordState), findLinkingIdx l = none →
      ∀ i, i < l.length → (l.getD i defaultWS).is_linking = false
  | [], _, i, h => absurd h (by simp)
  | w :: rest, h, i, hi => by
    by_cases hw : w.is_linking
    · simp [findLinkingIdx, hw] at h
    · simp only [findLinkingIdx, hw, Bool.false_eq_true, if_false, Option.map_eq_none'] at h
      match i with
      | 0 => simpa using hw
      | i + 1 => exact findLinkingIdx_none rest h i (by simpa using hi)

lemma allNonLinkingFull_cons (w : WordState) (ws : List WordState) :
    allNonLinkingFull (w :: ws) =
      ((w.is_linking || decide (w.state = Stage.full_word)) && allNonLinkingFull ws) := by
  by_cases hw : w.is_linking <;> simp [allNonLinkingFull, List.filter_cons, hw]

lemma allNonLinkingFull_iff :
    ∀ (ws : List WordState), allNonLinkingFull ws = true ↔
      (∀ i, i < ws.length → (ws.getD i defaultWS).is_linking = false →
        (ws.getD i defaultWS).state = Stage.full_word)
  | [] => by simp [allNonLinkingFull]
  | w :: ws => by
    rw [allNonLinkingFull_cons]
    constructor
    · intro h i hi hlink
      rw [Bool.and_eq_true] at h
      obtain ⟨h', hrest⟩ := h
      match i with
      | 0 =>
        simp only [List.getD_cons_zero] at hlink ⊢
        rcases Bool.or_eq_true_iff.1 h' with h1 | h1
        · rw [hlink] at h1; cases h1
        · exact of_decide_eq_true h1
      | i + 1 =>
        simp only [List.getD_cons_succ] at hlink ⊢
        exact (allNonLinkingFull_iff ws).1 hrest i (by simpa using hi) hlink
    · intro h
      have h1 : (w.is_linking || decide (w.state = Stage.full_word)) = true := by
        by_cases hw : w.is_linking
        · simp [hw]
        · have := h 0 (by simp) (by simpa using hw)
          simp only [List.getD_cons_zero] at this
          simp [this]
      have h2 : allNonLinkingFull ws = true := by
        refine (allNonLinkingFull_iff ws).2 ?_
        intro i hi hlink
        have := h (i + 1) (by simpa using Nat.succ_lt_succ hi)
        simpa using this hlink
      simp [h1, h2]

lemma allNonLinkingFull_false_of_witness (ws : List WordState) (i : Nat)
    (hi : i < ws.length) (hlink : (ws.getD i defaultWS).is_linking = false)
    (hst : (ws.getD i defaultWS).state ≠ Stage.full_word) :
    allNonLinkingFull ws = false := by
  by_cases h : allNonLinkingFull ws
  · exact absurd ((allNonLinkingFull_iff ws).1 h i hi hlink) hst
  · simpa using h

lemma modifyAt_oob (f : WordState → WordState) :
    ∀ (l : List WordState) (i : Nat), l.length ≤ i → modifyAt f l i = l
  | [], _, _ => rfl
  | w :: rest, i + 1, h => by
    simp [modifyAt, modifyAt_oob f rest i (by simpa using h)]

lemma is_linking_modifyAt (f : WordState → WordState)
    (hf : ∀ w, (f w).is_linking = w.is_linking) (l : List WordState) (i j : Nat) :
    ((modifyAt f l i).getD j defaultWS).is_linking = (l.getD j defaultWS).is_linking := by
  by_cases hji : j = i
  · subst hji
    by_cases hj : j < l.length
    · rw [getD_modifyAt_self f l j hj, hf]
    · rw [modifyAt_oob f l j (by omega)]
  · rw [getD_modifyAt_ne f l i j hji]

lemma oneLink_of_eq (ws ws' : List WordState) (hlen : ws'.length = ws.length)
    (hl : ∀ j, ((ws'.getD j defaultWS)).is_linking = (ws.getD j defaultWS).is_linking)
    (h : oneLink ws) : oneLink ws' := by
  intro i hi j hj h1 h2
  exact h i (hlen ▸ hi) j (hlen ▸ hj) ((hl i) ▸ h1) ((hl j) ▸ h2)

lemma hasNonLink_of_eq (ws ws' : List WordState) (hlen : ws'.length = ws.length)
    (hl : ∀ j, ((ws'.getD j defaultWS)).is_linking = (ws.getD j defaultWS).is_linking)
    (h : hasNonLink ws) : hasNonLink ws' := by
  rintro ⟨i, hi, hlink⟩
  obtain ⟨j, hj, hj2⟩ := h ⟨i, hlen ▸ hi, (hl i) ▸ hlink⟩
  exact ⟨j, hlen ▸ hj, (hl j) ▸ hj2⟩

/-- `allNonLinkingFull` only looks at `is_linking` and, for non-linking
entries, at `state`. -/
lemma allNLF_ext (ws ws' : List WordState) (hlen : ws'.length = ws.length)
    (h : ∀ j, j < ws.length →
      ((ws'.getD j defaultWS).is_linking = (ws.getD j defaultWS).is_linking ∧
        ((ws.getD j defaultWS).is_linking = false →
          (ws'.getD j defaultWS).state = (ws.getD j defaultWS).state))) :
    allNonLinkingFull ws' = allNonLinkingFull ws := by
  rw [Bool.eq_iff_iff, allNonLinkingFull_iff, allNonLinkingFull_iff]
  constructor
  · intro h' i hi hlink
    have hx := h i hi
    have := h' i (by omega) (by rw [hx.1]; exact hlink)
    rwa [hx.2 hlink] at this
  · intro h' i hi hlink
    have hx := h i (by omega)
    have hlink0 : (ws.getD i defaultWS).is_linking = false := by rw [← hx.1]; exact hlink
    rw [hx.2 hlink0]
    exact h' i (by omega) hlink0

/-! ### Step-branch characterizations -/

lemma stepG_noop (ws : List WordState) (i : Nat) (word : List Char) (c : Char)
    (h : (ws.getD i defaultWS).clickable = false) :
    handleWordClickG ws i word c = ws := by
  simp only [handleWordClickG]
  rw [if_pos h]

lemma stepG_first (ws : List WordState) (i : Nat) (word : List Char) (c : Char)
    (h1 : (ws.getD i defaultWS).clickable = true)
    (h2 : (ws.getD i defaultWS).state = Stage.empty) :
    handleWordClickG ws i word c = applyFirstLetterG ws i c := by
  simp only [handleWordClickG]
  rw [if_neg (by rw [h1]; decide), if_pos h2]

lemma stepG_full (ws : List WordState) (i : Nat) (word : List Char) (c : Char)
    (h1 : (ws.getD i defaultWS).clickable = true)
    (h2 : (ws.getD i defaultWS).state = Stage.first_letter) :
    handleWordClickG ws i word c = applyFullWordG ws i word := by
  simp only [handleWordClickG]
  rw [if_neg (by rw [h1]; decide), if_neg (by rw [h2]; decide), if_pos h2]

lemma stepG_done (ws : List WordState) (i : Nat) (word : List Char) (c : Char)
    (h2 : (ws.getD i defaultWS).state = Stage.full_word) :
    handleWordClickG ws i word c = ws := by
  by_cases h1 : (ws.getD i defaultWS).clickable = false
  · simp only [handleWordClickG]
    rw [if_pos h1]
  · simp only [handleWordClickG]
    rw [if_neg h1, if_neg (by rw [h2]; decide), if_neg (by rw [h2]; decide)]

lemma stepP_noop (ws : List WordState) (i : Nat) (word : List Char)
    (h : (ws.getD i defaultWS).clickable = false) :
    handleWordClickP ws i word = ws := by
  simp only [handleWordClickP]
  rw [if_pos h]

lemma stepP_first (ws : List WordState) (i : Nat) (word : List Char)
    (h1 : (ws.getD i defaultWS).clickable = true)
    (h2 : (ws.getD i defaultWS).state = Stage.empty) :
    handleWordClickP ws i word =
      checkLinkingWordAvailability (updateWordState ws i Stage.first_letter word) := by
  simp only [handleWordClickP]
  rw [if_neg (by rw [h1]; decide), if_pos h2]

lemma stepP_full (ws : List WordState) (i : Nat) (word : List Char)
    (h1 : (ws.getD i defaultWS).clickable = true)
    (h2 : (ws.getD i defaultWS).state = Stage.first_letter) :
    handleWordClickP ws i word =
      checkLinkingWordAvailability (updateWordState ws i Stage.full_word word) := by
  simp only [handleWordClickP]
  rw [if_neg (by rw [h1]; decide), if_neg (by rw [h2]; decide), if_pos h2]

lemma stepP_done (ws : List WordState) (i : Nat) (word : List Char)
    (h2 : (ws.getD i defaultWS).state = Stage.full_word) :
    handleWordClickP ws i word = ws := by
  by_cases h1 : (ws.getD i defaultWS).clickable = false
  · simp only [handleWordClickP]
    rw [if_pos h1]
  · simp only [handleWordClickP]
    rw [if_neg h1, if_neg (by rw [h2]; decide), if_neg (by rw [h2]; decide)]

/-! ### Frame lemmas for the linking-word recomputation -/

lemma length_checkLinkingWordUnlock (ws : List WordState) :
    (checkLinkingWordUnlock ws).length = ws.length := by
  by_cases hA : allNonLinkingFull ws
  · rcases hF : findLinkingIdx ws with _ | li <;>
      simp [checkLinkingWordUnlock, hA, hF, length_modifyAt]
  · simp [checkLinkingWordUnlock, hA]

lemma length_checkLinkingWordAvailability (ws : List WordState) :
    (checkLinkingWordAvailability ws).length = ws.length := by
  rcases hF : findLinkingIdx ws with _ | li <;>
    simp [checkLinkingWordAvailability, hF, length_modifyAt]

lemma unlock_getD (ws : List WordState) (j : Nat) :
    (checkLinkingWordUnlock ws).getD j defaultWS = ws.getD j defaultWS ∨
      ((checkLinkingWordUnlock ws).getD j defaultWS =
          { ws.getD j defaultWS with clickable := true } ∧
        (ws.getD j defaultWS).is_linking = true ∧ allNonLinkingFull ws = true) := by
  by_cases hA : allNonLinkingFull ws
  · rcases hF : findLinkingIdx ws with _ | li
    · left; simp [checkLinkingWordUnlock, hA, hF]
    · obtain ⟨hlt, hli⟩ := findLinkingIdx_some ws li hF
      by_cases hj : j = li
      · subst hj
        right
        refine ⟨?_, hli, hA⟩
        simp only [checkLinkingWordUnlock, hA, if_true, hF]
        exact getD_modifyAt_self _ ws j hlt
      · left
        simp only [checkLinkingWordUnlock, hA, if_true, hF]
        exact getD_modifyAt_ne _ ws li j hj
  · left
    simp [checkLinkingWordUnlock, hA]

lemma avail_getD (ws : List WordState) (j : Nat) :
    (checkLinkingWordAvailability ws).getD j defaultWS = ws.getD j defaultWS ∨
      ((checkLinkingWordAvailability ws).getD j defaultWS =
          { ws.getD j defaultWS with clickable := allNonLinkingFull ws } ∧
        (ws.getD j defaultWS).is_linking = true) := by
  rcases hF : findLinkingIdx ws with _ | li
  · left; simp [checkLinkingWordAvailability, hF]
  · obtain ⟨hlt, hli⟩ := findLinkingIdx_some ws li hF
    by_cases hj : j = li
    · subst hj
      right
      refine ⟨?_, hli⟩
      simp only [checkLinkingWordAvailability, hF]
      exact getD_modifyAt_self _ ws j hlt
    · left
      simp only [checkLinkingWordAvailability, hF]
      exact getD_modifyAt_ne _ ws li j hj

lemma is_linking_unlock (ws : List WordState) (j : Nat) :
    ((checkLinkingWordUnlock ws).getD j defaultWS).is_linking =
      (ws.getD j defaultWS).is_linking := by
  rcases unlock_getD ws j with h | ⟨h, _, _⟩ <;> rw [h]

lemma state_unlock (ws : List WordState) (j : Nat) :
    ((checkLinkingWordUnlock ws).getD j defaultWS).state = (ws.getD j defaultWS).state := by
  rcases unlock_getD ws j with h | ⟨h, _, _⟩ <;> rw [h]

lemma letters_unlock (ws : List WordState) (j : Nat) :
    ((checkLinkingWordUnlock ws).getD j defaultWS).letters =
      (ws.getD j defaultWS).letters := by
  rcases unlock_getD ws j with h | ⟨h, _, _⟩ <;> rw [h]

lemma is_linking_avail (ws : List WordState) (j : Nat) :
    ((checkLinkingWordAvailability ws).getD j defaultWS).is_linking =
      (ws.getD j defaultWS).is_linking := by
  rcases avail_getD ws j with h | ⟨h, _⟩ <;> rw [h]

lemma state_avail (ws : List WordState) (j : Nat) :
    ((checkLinkingWordAvailability ws).getD j defaultWS).state =
      (ws.getD j defaultWS).state := by
  rcases avail_getD ws j with h | ⟨h, _⟩ <;> rw [h]

lemma letters_avail (ws : List WordState) (j : Nat) :
    ((checkLinkingWordAvailability ws).getD j defaultWS).letters =
      (ws.getD j defaultWS).letters := by
  rcases avail_getD ws j with h | ⟨h, _⟩ <;> rw [h]

lemma allNLF_unlock (ws : List WordState) :
    allNonLinkingFull (checkLinkingWordUnlock ws) = allNonLinkingFull ws := by
  refine allNLF_ext ws _ (length_checkLinkingWordUnlock ws) ?_
  intro j _
  exact ⟨is_linking_unlock ws j, fun _ => state_unlock ws j⟩

lemma allNLF_avail (ws : List WordState) :
    allNonLinkingFull (checkLinkingWordAvailability ws) = allNonLinkingFull ws := by
  refine allNLF_ext ws _ (length_checkLinkingWordAvailability ws) ?_
  intro j _
  exact ⟨is_linking_avail ws j, fun _ => state_avail ws j⟩

/-- When a linking entry exists, `checkLinkingWordAvailability` sets its
`clickable` to `allNonLinkingFull`; with at most one linking entry this fixes
`linkOK` outright. -/
lemma avail_clickable_of_linking (ws : List WordState) (j : Nat) (hj : j < ws.length)
    (hone : oneLink ws) (hlink : (ws.getD j defaultWS).is_linking = true) :
    ((checkLinkingWordAvailability ws).getD j defaultWS).clickable = allNonLinkingFull ws := by
  rcases hF : findLinkingIdx ws with _ | li
  · exact absurd (findLinkingIdx_none ws hF j hj) (by rw [hlink]; decide)
  · obtain ⟨hlt, hli⟩ := findLinkingIdx_some ws li hF
    have : j = li := hone j hj li hlt hlink hli
    subst this
    simp only [checkLinkingWordAvailability, hF]
    rw [getD_modifyAt_self _ ws j hlt]

/-! ### Invariant preservation -/

lemma clickable_lt_length (ws : List WordState) (i : Nat)
    (hc : (ws.getD i defaultWS).clickable = true) : i < ws.length := by
  by_contra hcon
  rw [List.getD_eq_default _ _ (by omega)] at hc
  exact absurd hc (by decide)

lemma preserve_firstG (ws : List WordState) (i : Nat) (c : Char) (hOK : trackerOK ws)
    (hc : (ws.getD i defaultWS).clickable = true)
    (hs : (ws.getD i defaultWS).state = Stage.empty) :
    trackerOK (applyFirstLetterG ws i c) := by
  obtain ⟨hone, hnon, hnl, hlk⟩ := hOK
  have hi : i < ws.length := clickable_lt_length ws i hc
  have hflink : ∀ w : WordState,
      ({ w with state := Stage.first_letter, letters := w.letters.set 0 c } : WordState).is_linking
        = w.is_linking := fun _ => rfl
  have hlen : (applyFirstLetterG ws i c).length = ws.length := length_modifyAt _ ws i
  have hgeti : (applyFirstLetterG ws i c).getD i defaultWS =
      { ws.getD i defaultWS with
          state := Stage.first_letter
          letters := (ws.getD i defaultWS).letters.set 0 c } :=
    getD_modifyAt_self _ ws i hi
  have hgetne : ∀ j, j ≠ i →
      (applyFirstLetterG ws i c).getD j defaultWS = ws.getD j defaultWS :=
    fun j hj => getD_modifyAt_ne _ ws i j hj
  have hlinkeq : ∀ j, ((applyFirstLetterG ws i c).getD j defaultWS).is_linking =
      (ws.getD j defaultWS).is_linking :=
    fun j => is_linking_modifyAt _ hflink ws i j
  have hALL : allNonLinkingFull (applyFirstLetterG ws i c) = allNonLinkingFull ws := by
    by_cases hLi : (ws.getD i defaultWS).is_linking = true
    · refine allNLF_ext ws _ hlen ?_
      intro j hj
      refine ⟨hlinkeq j, fun hjn => ?_⟩
      by_cases hji : j = i
      · subst hji
        rw [hLi] at hjn
        exact absurd hjn (by decide)
      · rw [hgetne j hji]
    · have h1 : allNonLinkingFull ws = false :=
        allNonLinkingFull_false_of_witness ws i hi (by simpa using hLi) (by rw [hs]; decide)
      have h2 : allNonLinkingFull (applyFirstLetterG ws i c) = false := by
        refine allNonLinkingFull_false_of_witness _ i (by rw [hlen]; exact hi) ?_ ?_
        · rw [hlinkeq i]
          simpa using hLi
        · rw [hgeti]
          exact fun h => Stage.noConfusion h
      rw [h1, h2]
  refine ⟨oneLink_of_eq ws _ hlen hlinkeq hone, hasNonLink_of_eq ws _ hlen hlinkeq hnon, ?_, ?_⟩
  · intro j hj hjn
    by_cases hji : j = i
    · subst hji
      rw [hgeti]
      exact ⟨fun _ => fun hcontra => Stage.noConfusion hcontra, fun _ => hc⟩
    · rw [hgetne j hji] at hjn ⊢
      exact hnl j (by rw [hlen] at hj; exact hj) hjn
  · intro j hj hjl
    rw [hALL]
    by_cases hji : j = i
    · subst hji
      rw [hgeti] at hjl ⊢
      exact hlk j hi hjl
    · rw [hgetne j hji] at hjl ⊢
      exact hlk j (by rw [hlen] at hj; exact hj) hjl

lemma preserve_fullG (ws : List WordState) (i : Nat) (word : List Char) (hOK : trackerOK ws)
    (hc : (ws.getD i defaultWS).clickable = true)
    (hs : (ws.getD i defaultWS).state = Stage.first_letter) :
    trackerOK (applyFullWordG ws i word) := by
  obtain ⟨hone, hnon, hnl, hlk⟩ := hOK
  have hi : i < ws.length := clickable_lt_length ws i hc
  set ws1 := modifyAt
    (fun w => { w with state := Stage.full_word, letters := word, clickable := false }) ws i
    with hws1
  have hstep : applyFullWordG ws i word = checkLinkingWordUnlock ws1 := rfl
  have hflink : ∀ w : WordState,
      ({ w with state := Stage.full_word, letters := word, clickable := false } : WordState).is_linking = w.is_linking :=
    fun _ => rfl
  have hlen1 : ws1.length = ws.length := length_modifyAt _ ws i
  have hget1i : ws1.getD i defaultWS =
      { ws.getD i defaultWS with state := Stage.full_word, letters := word, clickable := false } :=
    getD_modifyAt_self _ ws i hi
  have hget1ne : ∀ j, j ≠ i → ws1.getD j defaultWS = ws.getD j defaultWS :=
    fun j hj => getD_modifyAt_ne _ ws i j hj
  have hlink1 : ∀ j, (ws1.getD j defaultWS).is_linking = (ws.getD j defaultWS).is_linking :=
    fun j => is_linking_modifyAt _ hflink ws i j
  have hone1 : oneLink ws1 := oneLink_of_eq ws ws1 hlen1 hlink1 hone
  have hnon1 : hasNonLink ws1 := hasNonLink_of_eq ws ws1 hlen1 hlink1 hnon
  have hnl1 : nonLinkOK ws1 := by
    intro j hj hjn
    by_cases hji : j = i
    · subst hji
      rw [hget1i]
      exact ⟨fun h => Bool.noConfusion h, fun h => absurd rfl h⟩
    · rw [hget1ne j hji] at hjn ⊢
      exact hnl j (by rw [hlen1] at hj; exact hj) hjn
  have hlen2 : (checkLinkingWordUnlock ws1).length = ws1.length :=
    length_checkLinkingWordUnlock ws1
  have hlink2 : ∀ j, ((checkLinkingWordUnlock ws1).getD j defaultWS).is_linking =
      (ws1.getD j defaultWS).is_linking := fun j => is_linking_unlock ws1 j
  have hALL2 : allNonLinkingFull (checkLinkingWordUnlock ws1) = allNonLinkingFull ws1 :=
    allNLF_unlock ws1
  rw [hstep]
  refine ⟨oneLink_of_eq ws1 _ hlen2 hlink2 hone1,
    hasNonLink_of_eq ws1 _ hlen2 hlink2 hnon1, ?_, ?_⟩
  · intro j hj hjn
    have hjn1 : (ws1.getD j defaultWS).is_linking = false := by rw [← hlink2 j]; exact hjn
    rcases unlock_getD ws1 j with heq | ⟨heq, hlinkj, _⟩
    · rw [heq]
      exact hnl1 j (by rw [hlen2] at hj; exact hj) hjn1
    · rw [hlinkj] at hjn1
      exact absurd hjn1 (by decide)
  · intro j hj hjl
    rw [hALL2]
    have hj1 : j < ws1.length := by rw [hlen2] at hj; exact hj
    have hjl1 : (ws1.getD j defaultWS).is_linking = true := by rw [← hlink2 j]; exact hjl
    by_cases hA : allNonLinkingFull ws1 = true
    · rcases hF : findLinkingIdx ws1 with _ | li
      · exact absurd (findLinkingIdx_none ws1 hF j hj1) (by rw [hjl1]; decide)
      · obtain ⟨hlt, hli⟩ := findLinkingIdx_some ws1 li hF
        have hj_eq : j = li := hone1 j hj1 li hlt hjl1 hli
        have hunlock : checkLinkingWordUnlock ws1 =
            modifyAt (fun w => { w with clickable := true }) ws1 li := by
          simp [checkLinkingWordUnlock, hA, hF]
        rw [hA, hj_eq, hunlock, getD_modifyAt_self _ ws1 li hlt]
    · have hAf : allNonLinkingFull ws1 = false := by simpa using hA
      have hid : checkLinkingWordUnlock ws1 = ws1 := by
        simp [checkLinkingWordUnlock, hAf]
      rw [hid, hAf]
      by_cases hji : j = i
      · subst hji
        rw [hget1i]
      · rw [hget1ne j hji]
        rw [hget1ne j hji] at hjl1
        have hcl : (ws.getD j defaultWS).clickable = allNonLinkingFull ws :=
          hlk j (by rw [hlen1] at hj1; exact hj1) hjl1
        rw [hcl]
        by_cases hLi : (ws.getD i defaultWS).is_linking = true
        · exact absurd (hone j (by rw [hlen1] at hj1; exact hj1) i hi hjl1 hLi) hji
        · exact allNonLinkingFull_false_of_witness ws i hi (by simpa using hLi)
            (by rw [hs]; decide)

lemma preserve_firstP (ws : List WordState) (i : Nat) (word : List Char) (hOK : trackerOK ws)
    (hc : (ws.getD i defaultWS).clickable = true)
    (hs : (ws.getD i defaultWS).state = Stage.empty) :
    trackerOK (checkLinkingWordAvailability (updateWordState ws i Stage.first_letter word)) := by
  obtain ⟨hone, hnon, hnl, hlk⟩ := hOK
  have hi : i < ws.length := clickable_lt_length ws i hc
  have hupd : updateWordState ws i Stage.first_letter word =
      modifyAt (fun w => { w with state := Stage.first_letter, letters := w.letters.set 0 (word.headD '_'), clickable := true }) ws i := by
    simp [updateWordState]
  rw [hupd]
  set ws1 := modifyAt
    (fun w => { w with state := Stage.first_letter, letters := w.letters.set 0 (word.headD '_'), clickable := true }) ws i
    with hws1
  have hflink : ∀ w : WordState,
      ({ w with state := Stage.first_letter, letters := w.letters.set 0 (word.headD '_'), clickable := true } : WordState).is_linking = w.is_linking :=
    fun _ => rfl
  have hlen1 : ws1.length = ws.length := length_modifyAt _ ws i
  have hget1i : ws1.getD i defaultWS =
      { ws.getD i defaultWS with state := Stage.first_letter, letters := (ws.getD i defaultWS).letters.set 0 (word.headD '_'), clickable := true } :=
    getD_modifyAt_self _ ws i hi
  have hget1ne : ∀ j, j ≠ i → ws1.getD j defaultWS = ws.getD j defaultWS :=
    fun j hj => getD_modifyAt_ne _ ws i j hj
  have hlink1 : ∀ j, (ws1.getD j defaultWS).is_linking = (ws.getD j defaultWS).is_linking :=
    fun j => is_linking_modifyAt _ hflink ws i j
  have hone1 : oneLink ws1 := oneLink_of_eq ws ws1 hlen1 hlink1 hone
  have hnon1 : hasNonLink ws1 := hasNonLink_of_eq ws ws1 hlen1 hlink1 hnon
  have hnl1 : nonLinkOK ws1 := by
    intro j hj hjn
    by_cases hji : j = i
    · subst hji
      rw [hget1i]
      exact ⟨fun _ => fun hcontra => Stage.noConfusion hcontra, fun _ => rfl⟩
    · rw [hget1ne j hji] at hjn ⊢
      exact hnl j (by rw [hlen1] at hj; exact hj) hjn
  have hlen2 : (checkLinkingWordAvailability ws1).length = ws1.length :=
    length_checkLinkingWordAvailability ws1
  have hlink2 : ∀ j, ((checkLinkingWordAvailability ws1).getD j defaultWS).is_linking =
      (ws1.getD j defaultWS).is_linking := fun j => is_linking_avail ws1 j
  have hALL2 : allNonLinkingFull (checkLinkingWordAvailability ws1) = allNonLinkingFull ws1 :=
    allNLF_avail ws1
  refine ⟨oneLink_of_eq ws1 _ hlen2 hlink2 hone1,
    hasNonLink_of_eq ws1 _ hlen2 hlink2 hnon1, ?_, ?_⟩
  · intro j hj hjn
    have hjn1 : (ws1.getD j defaultWS).is_linking = false := by rw [← hlink2 j]; exact hjn
    rcases avail_getD ws1 j with heq | ⟨heq, hlinkj⟩
    · rw [heq]
      exact hnl1 j (by rw [hlen2] at hj; exact hj) hjn1
    · rw [hlinkj] at hjn1
      exact absurd hjn1 (by decide)
  · intro j hj hjl
    rw [hALL2]
    have hj1 : j < ws1.length := by rw [hlen2] at hj; exact hj
    have hjl1 : (ws1.getD j defaultWS).is_linking = true := by rw [← hlink2 j]; exact hjl
    exact avail_clickable_of_linking ws1 j hj1 hone1 hjl1

lemma preserve_fullP (ws : List WordState) (i : Nat) (word : List Char) (hOK : trackerOK ws)
    (hc : (ws.getD i defaultWS).clickable = true)
    (hs : (ws.getD i defaultWS).state = Stage.first_letter) :
    trackerOK (checkLinkingWordAvailability (updateWordState ws i Stage.full_word word)) := by
  obtain ⟨hone, hnon, hnl, hlk⟩ := hOK
  have hi : i < ws.length := clickable_lt_length ws i hc
  have hupd : updateWordState ws i Stage.full_word word =
      modifyAt (fun w => { w with state := Stage.full_word, letters := word, clickable := false }) ws i := by
    simp [updateWordState]
  rw [hupd]
  set ws1 := modifyAt
    (fun w => { w with state := Stage.full_word, letters := word, clickable := false }) ws i
    with hws1
  have hflink : ∀ w : WordState,
      ({ w with state := Stage.full_word, letters := word, clickable := false } : WordState).is_linking = w.is_linking :=
    fun _ => rfl
  have hlen1 : ws1.length = ws.length := length_modifyAt _ ws i
  have hget1i : ws1.getD i defaultWS =
      { ws.getD i defaultWS with state := Stage.full_word, letters := word, clickable := false } :=
    getD_modifyAt_self _ ws i hi
  have hget1ne : ∀ j, j ≠ i → ws1.getD j defaultWS = ws.getD j defaultWS :=
    fun j hj => getD_modifyAt_ne _ ws i j hj
  have hlink1 : ∀ j, (ws1.getD j defaultWS).is_linking = (ws.getD j defaultWS).is_linking :=
    fun j => is_linking_modifyAt _ hflink ws i j
  have hone1 : oneLink ws1 := oneLink_of_eq ws ws1 hlen1 hlink1 hone
  have hnon1 : hasNonLink ws1 := hasNonLink_of_eq ws ws1 hlen1 hlink1 hnon
  have hnl1 : nonLinkOK ws1 := by
    intro j hj hjn
    by_cases hji : j = i
    · subst hji
      rw [hget1i]
      exact ⟨fun h => Bool.noConfusion h, fun h => absurd rfl h⟩
    · rw [hget1ne j hji] at hjn ⊢
      exact hnl j (by rw [hlen1] at hj; exact hj) hjn
  have hlen2 : (checkLinkingWordAvailability ws1).length = ws1.length :=
    length_checkLinkingWordAvailability ws1
  have hlink2 : ∀ j, ((checkLinkingWordAvailability ws1).getD j defaultWS).is_linking =
      (ws1.getD j defaultWS).is_linking := fun j => is_linking_avail ws1 j
  have hALL2 : allNonLinkingFull (checkLinkingWordAvailability ws1) = allNonLinkingFull ws1 :=
    allNLF_avail ws1
  refine ⟨oneLink_of_eq ws1 _ hlen2 hlink2 hone1,
    hasNonLink_of_eq ws1 _ hlen2 hlink2 hnon1, ?_, ?_⟩
  · intro j hj hjn
    have hjn1 : (ws1.getD j defaultWS).is_linking = false := by rw [← hlink2 j]; exact hjn
    rcases avail_getD ws1 j with heq | ⟨heq, hlinkj⟩
    · rw [heq]
      exact hnl1 j (by rw [hlen2] at hj; exact hj) hjn1
    · rw [hlinkj] at hjn1
      exact absurd hjn1 (by decide)
  · intro j hj hjl
    rw [hALL2]
    have hj1 : j < ws1.length := by rw [hlen2] at hj; exact hj
    have hjl1 : (ws1.getD j defaultWS).is_linking = true := by rw [← hlink2 j]; exact hjl
    exact avail_clickable_of_linking ws1 j hj1 hone1 hjl1

lemma stepG_preserves (ws : List WordState) (i : Nat) (word : List Char) (c : Char)
    (h : trackerOK ws) : trackerOK (handleWordClickG ws i word c) := by
  by_cases hc : (ws.getD i defaultWS).clickable = false
  · rw [stepG_noop ws i word c hc]; exact h
  · have hc' : (ws.getD i defaultWS).clickable = true := by
      cases hcv : (ws.getD i defaultWS).clickable
      · exact absurd hcv hc
      · rfl
    cases hst : (ws.getD i defaultWS).state with
    | empty =>
      rw [stepG_first ws i word c hc' hst]
      exact preserve_firstG ws i c h hc' hst
    | first_letter =>
      rw [stepG_full ws i word c hc' hst]
      exact preserve_fullG ws i word h hc' hst
    | full_word =>
      rw [stepG_done ws i word c hst]
      exact h

lemma stepP_preserves (ws : List WordState) (i : Nat) (word : List Char)
    (h : trackerOK ws) : trackerOK (handleWordClickP ws i word) := by
  by_cases hc : (ws.getD i defaultWS).clickable = false
  · rw [stepP_noop ws i word hc]; exact h
  · have hc' : (ws.getD i defaultWS).clickable = true := by
      cases hcv : (ws.getD i defaultWS).clickable
      · exact absurd hcv hc
      · rfl
    cases hst : (ws.getD i defaultWS).state with
    | empty =>
      rw [stepP_first ws i word hc' hst]
      exact preserve_firstP ws i word h hc' hst
    | first_letter =>
      rw [stepP_full ws i word hc' hst]
      exact preserve_fullP ws i word h hc' hst
    | full_word =>
      rw [stepP_done ws i word hst]
      exact h

lemma runG_preserves (evs : List GEvent) : ∀ ws, trackerOK ws → trackerOK (runG ws evs) := by
  induction evs with
  | nil => intro ws h; exact h
  | cons e es ih =>
    intro ws h
    exact ih _ (stepG_preserves ws e.idx e.word e.firstChar h)

lemma runP_preserves (evs : List PEvent) : ∀ ws, trackerOK ws → trackerOK (runP ws evs) := by
  induction evs with
  | nil => intro ws h; exact h
  | cons e es ih =>
    intro ws h
    exact ih _ (stepP_preserves ws e.idx e.word h)

lemma getD_map_lt {α β : Type} (f : α → β) (dα : α) (dβ : β) :
    ∀ (l : List α) (j : Nat), j < l.length → (l.map f).getD j dβ = f (l.getD j dα)
  | [], j, h => absurd h (by simp)
  | a :: rest, 0, _ => rfl
  | a :: rest, j + 1, h => by
    simpa using getD_map_lt f dα dβ rest j (by simpa using h)

lemma getD_initializeWordStates (entries : List WordEntry) (j : Nat)
    (hj : j < entries.length) :
    (initializeWordStates entries).getD j defaultWS =
      { word_index := (entries.getD j defaultWE).word_index
        length := (entries.getD j defaultWE).length
        is_linking := (entries.getD j defaultWE).is_linking
        state := Stage.empty
        letters := List.replicate (entries.getD j defaultWE).length '_'
        clickable := !(entries.getD j defaultWE).is_linking } :=
  getD_map_lt _ defaultWE defaultWS entries j hj

lemma length_initializeWordStates (entries : List WordEntry) :
    (initializeWordStates entries).length = entries.length := by
  simp [initializeWordStates]

lemma initializeWordStates_trackerOK (entries : List WordEntry)
    (hone : ∀ i, i < entries.length → ∀ j, j < entries.length →
      (entries.getD i defaultWE).is_linking = true →
      (entries.getD j defaultWE).is_linking = true → i = j)
    (hnon : (∃ i, i < entries.length ∧ (entries.getD i defaultWE).is_linking = true) →
      ∃ j, j < entries.length ∧ (entries.getD j defaultWE).is_linking = false) :
    trackerOK (initializeWordStates entries) := by
  have hlen := length_initializeWordStates entries
  have hlink : ∀ j, j < entries.length →
      ((initializeWordStates entries).getD j defaultWS).is_linking =
        (entries.getD j defaultWE).is_linking := by
    intro j hj
    rw [getD_initializeWordStates entries j hj]
  refine ⟨?_, ?_, ?_, ?_⟩
  · intro i hi j hj h1 h2
    rw [hlen] at hi hj
    rw [hlink i hi] at h1
    rw [hlink j hj] at h2
    exact hone i hi j hj h1 h2
  · rintro ⟨i, hi, h1⟩
    rw [hlen] at hi
    rw [hlink i hi] at h1
    obtain ⟨j, hj, h2⟩ := hnon ⟨i, hi, h1⟩
    exact ⟨j, by rw [hlen]; exact hj, by rw [hlink j hj]; exact h2⟩
  · intro j hj hjn
    rw [hlen] at hj
    rw [getD_initializeWordStates entries j hj] at hjn ⊢
    simp only at hjn ⊢
    rw [hjn]
    exact ⟨fun _ => fun hcontra => Stage.noConfusion hcontra, fun _ => rfl⟩
  · intro j hj hjl
    rw [hlen] at hj
    rw [getD_initializeWordStates entries j hj] at hjl ⊢
    simp only at hjl ⊢
    rw [hjl]
    obtain ⟨k, hk, hk2⟩ := hnon ⟨j, hj, hjl⟩
    have : allNonLinkingFull (initializeWordStates entries) = false := by
      refine allNonLinkingFull_false_of_witness _ k (by rw [hlen]; exact hk) ?_ ?_
      · rw [getD_initializeWordStates entries k hk]
        exact hk2
      · rw [getD_initializeWordStates entries k hk]
        exact fun h => Stage.noConfusion h
    rw [this]
    decide

/-! ### Unfolding lemmas for the Hint Policy -/

lemma gwsh_structure (answer lw : List Char) :
    generateWordSpecificHint answer lw none "structure" =
      HintResult.structureReveal
        (jsMapIdx (structureEntry (linkIndexOf (splitOnSpace answer) lw)) (splitOnSpace answer))
        5 := rfl

lemma gwsh_oob (answer lw : List Char) (wi : Int) (ht : String)
    (h : wi < 0 ∨ ((splitOnSpace answer).length : Int) ≤ wi) :
    generateWordSpecificHint answer lw (some wi) ht = HintResult.err "Invalid word_index" := by
  simp only [generateWordSpecificHint]
  rw [if_pos h]

lemma gwsh_badtype (answer lw : List Char) (wi : Int) (ht : String)
    (hwi : ¬(wi < 0 ∨ ((splitOnSpace answer).length : Int) ≤ wi))
    (h1 : ht ≠ "first_letter") (h2 : ht ≠ "full_word") (h3 : ht ≠ "check_linking_available") :
    generateWordSpecificHint answer lw (some wi) ht =
      HintResult.err
        "Invalid hint_type. Must be first_letter, full_word, or check_linking_available" := by
  simp only [generateWordSpecificHint]
  rw [if_neg hwi, if_pos ⟨h1, h2, h3⟩]

lemma gwsh_check (answer lw : List Char) (wi : Int)
    (hwi : ¬(wi < 0 ∨ ((splitOnSpace answer).length : Int) ≤ wi)) :
    generateWordSpecificHint answer lw (some wi) "check_linking_available" =
      HintResult.linkingCheck true 0 := by
  simp only [generateWordSpecificHint]
  rw [if_neg hwi, if_neg (by simp)]
  simp

lemma gwsh_first (answer lw : List Char) (wi : Nat)
    (hwi : wi < (splitOnSpace answer).length) :
    generateWordSpecificHint answer lw (some (wi : Int)) "first_letter" =
      HintResult.reveal Stage.first_letter
        (jsMapIdx (hintedEntry (linkIndexOf (splitOnSpace answer) lw) wi Stage.first_letter)
          (splitOnSpace answer))
        (if linkIndexOf (splitOnSpace answer) lw = some wi then 5 else 3)
        wi ((splitOnSpace answer).getD wi [])
        (decide (linkIndexOf (splitOnSpace answer) lw = some wi)) := by
  simp only [generateWordSpecificHint]
  rw [if_neg (by omega), if_neg (by simp), if_neg (by simp)]
  by_cases hl : linkIndexOf (splitOnSpace answer) lw = some wi <;> simp [hl]

lemma gwsh_full (answer lw : List Char) (wi : Nat)
    (hwi : wi < (splitOnSpace answer).length) :
    generateWordSpecificHint answer lw (some (wi : Int)) "full_word" =
      HintResult.reveal Stage.full_word
        (jsMapIdx (hintedEntry (linkIndexOf (splitOnSpace answer) lw) wi Stage.full_word)
          (splitOnSpace answer))
        (if linkIndexOf (splitOnSpace answer) lw = some wi then 5 else 3)
        wi ((splitOnSpace answer).getD wi [])
        (decide (linkIndexOf (splitOnSpace answer) lw = some wi)) := by
  simp only [generateWordSpecificHint]
  rw [if_neg (by omega), if_neg (by simp), if_neg (by simp)]
  by_cases hl : linkIndexOf (splitOnSpace answer) lw = some wi <;> simp [hl]

/-! ### Stage-progression helpers -/

lemma stageRank_le_succ (s : Stage) : stageRank s ≤ stageRank (stageSucc s) := by
  cases s <;> decide

lemma clickable_true_of_not_false (ws : List WordState) (i : Nat)
    (hc : ¬(ws.getD i defaultWS).clickable = false) :
    (ws.getD i defaultWS).clickable = true := by
  cases hcv : (ws.getD i defaultWS).clickable
  · exact absurd hcv hc
  · rfl

lemma stepG_forward (ws : List WordState) (i : Nat) (word : List Char) (c : Char) (j : Nat) :
    ((handleWordClickG ws i word c).getD j defaultWS).state = (ws.getD j defaultWS).state ∨
      ((handleWordClickG ws i word c).getD j defaultWS).state =
        stageSucc (ws.getD j defaultWS).state := by
  by_cases hc : (ws.getD i defaultWS).clickable = false
  · rw [stepG_noop ws i word c hc]; left; rfl
  · have hc' := clickable_true_of_not_false ws i hc
    have hi := clickable_lt_length ws i hc'
    cases hst : (ws.getD i defaultWS).state with
    | empty =>
      rw [stepG_first ws i word c hc' hst]
      by_cases hji : j = i
      · subst hji
        have hgeti : (applyFirstLetterG ws j c).getD j defaultWS =
            { ws.getD j defaultWS with
                state := Stage.first_letter
                letters := (ws.getD j defaultWS).letters.set 0 c } :=
          getD_modifyAt_self _ ws j hi
        right
        rw [hgeti, hst]
        rfl
      · have hgetne : (applyFirstLetterG ws i c).getD j defaultWS = ws.getD j defaultWS :=
          getD_modifyAt_ne _ ws i j hji
        left
        rw [hgetne]
    | first_letter =>
      rw [stepG_full ws i word c hc' hst]
      have hstate : ((applyFullWordG ws i word).getD j defaultWS).state =
          ((modifyAt (fun w => { w with state := Stage.full_word, letters := word, clickable := false }) ws i).getD j defaultWS).state :=
        state_unlock _ j
      rw [hstate]
      by_cases hji : j = i
      · subst hji
        have hgeti : (modifyAt (fun w => { w with state := Stage.full_word, letters := word, clickable := false }) ws j).getD j defaultWS =
            { ws.getD j defaultWS with state := Stage.full_word, letters := word, clickable := false } :=
          getD_modifyAt_self _ ws j hi
        right
        rw [hgeti, hst]
        rfl
      · have hgetne : (modifyAt (fun w => { w with state := Stage.full_word, letters := word, clickable := false }) ws i).getD j defaultWS = ws.getD j defaultWS :=
          getD_modifyAt_ne _ ws i j hji
        left
        rw [hgetne]
    | full_word =>
      rw [stepG_done ws i word c hst]; left; rfl

lemma stepP_forward (ws : List WordState) (i : Nat) (word : List Char) (j : Nat) :
    ((handleWordClickP ws i word).getD j defaultWS).state = (ws.getD j defaultWS).state ∨
      ((handleWordClickP ws i word).getD j defaultWS).state =
        stageSucc (ws.getD j defaultWS).state := by
  by_cases hc : (ws.getD i defaultWS).clickable = false
  · rw [stepP_noop ws i word hc]; left; rfl
  · have hc' := clickable_true_of_not_false ws i hc
    have hi := clickable_lt_length ws i hc'
    cases hst : (ws.getD i defaultWS).state with
    | empty =>
      rw [stepP_first ws i word hc' hst]
      have hupd : updateWordState ws i Stage.first_letter word =
          modifyAt (fun w => { w with state := Stage.first_letter, letters := w.letters.set 0 (word.headD '_'), clickable := true }) ws i := by
        simp [updateWordState]
      have hstate : ((checkLinkingWordAvailability (updateWordState ws i Stage.first_letter word)).getD j defaultWS).state =
          ((updateWordState ws i Stage.first_letter word).getD j defaultWS).state :=
        state_avail _ j
      rw [hstate, hupd]
      by_cases hji : j = i
      · subst hji
        have hgeti : (modifyAt (fun w => { w with state := Stage.first_letter, letters := w.letters.set 0 (word.headD '_'), clickable := true }) ws j).getD j defaultWS =
            { ws.getD j defaultWS with state := Stage.first_letter, letters := (ws.getD j defaultWS).letters.set 0 (word.headD '_'), clickable := true } :=
          getD_modifyAt_self _ ws j hi
        right
        rw [hgeti, hst]
        rfl
      · have hgetne : (modifyAt (fun w => { w with state := Stage.first_letter, letters := w.letters.set 0 (word.headD '_'), clickable := true }) ws i).getD j defaultWS = ws.getD j defaultWS :=
          getD_modifyAt_ne _ ws i j hji
        left
        rw [hgetne]
    | first_letter =>
      rw [stepP_full ws i word hc' hst]
      have hupd : updateWordState ws i Stage.full_word word =
          modifyAt (fun w => { w with state := Stage.full_word, letters := word, clickable := false }) ws i := by
        simp [updateWordState]
      have hstate : ((checkLinkingWordAvailability (updateWordState ws i Stage.full_word word)).getD j defaultWS).state =
          ((updateWordState ws i Stage.full_word word).getD j defaultWS).state :=
        state_avail _ j
      rw [hstate, hupd]
      by_cases hji : j = i
      · subst hji
        have hgeti : (modifyAt (fun w => { w with state := Stage.full_word, letters := word, clickable := false }) ws j).getD j defaultWS =
            { ws.getD j defaultWS with state := Stage.full_word, letters := word, clickable := false } :=
          getD_modifyAt_self _ ws j hi
        right
        rw [hgeti, hst]
        rfl
      · have hgetne : (modifyAt (fun w => { w with state := Stage.full_word, letters := word, clickable := false }) ws i).getD j defaultWS = ws.getD j defaultWS :=
          getD_modifyAt_ne _ ws i j hji
        left
        rw [hgetne]
    | full_word =>
      rw [stepP_done ws i word hst]; left; rfl

lemma runG_stage_mono (evs : List GEvent) : ∀ (ws : List WordState) (j : Nat),
    stageRank (ws.getD j defaultWS).state ≤ stageRank ((runG ws evs).getD j defaultWS).state := by
  induction evs with
  | nil => intro ws j; exact Nat.le_refl _
  | cons e es ih =>
    intro ws j
    refine Nat.le_trans ?_ (ih (handleWordClickG ws e.idx e.word e.firstChar) j)
    rcases stepG_forward ws e.idx e.word e.firstChar j with h | h
    · rw [h]
    · rw [h]; exact stageRank_le_succ _

lemma runP_stage_mono (evs : List PEvent) : ∀ (ws : List WordState) (j : Nat),
    stageRank (ws.getD j defaultWS).state ≤ stageRank ((runP ws evs).getD j defaultWS).state := by
  induction evs with
  | nil => intro ws j; exact Nat.le_refl _
  | cons e es ih =>
    intro ws j
    refine Nat.le_trans ?_ (ih (handleWordClickP ws e.idx e.word) j)
    rcases stepP_forward ws e.idx e.word j with h | h
    · rw [h]
    · rw [h]; exact stageRank_le_succ _

/-! ### Composition and frame helpers -/

lemma modifyAt_modifyAt (f g : WordState → WordState) :
    ∀ (l : List WordState) (i : Nat),
      modifyAt g (modifyAt f l i) i = modifyAt (fun w => g (f w)) l i
  | [], _ => rfl
  | w :: rest, 0 => rfl
  | w :: rest, i + 1 => by simp [modifyAt, modifyAt_modifyAt f g rest i]

lemma firstThenFull_eq_full (ws : List WordState) (i : Nat) (w1 w2 : List Char) (c c2 : Char)
    (hc : (ws.getD i defaultWS).clickable = true)
    (hs : (ws.getD i defaultWS).state = Stage.empty) :
    handleWordClickG (handleWordClickG ws i w1 c) i w2 c2 = applyFullWordG ws i w2 := by
  have hi := clickable_lt_length ws i hc
  rw [stepG_first ws i w1 c hc hs]
  have hgeti : (applyFirstLetterG ws i c).getD i defaultWS =
      { ws.getD i defaultWS with
          state := Stage.first_letter
          letters := (ws.getD i defaultWS).letters.set 0 c } :=
    getD_modifyAt_self _ ws i hi
  have hc1 : ((applyFirstLetterG ws i c).getD i defaultWS).clickable = true := by
    rw [hgeti]; exact hc
  have hs1 : ((applyFirstLetterG ws i c).getD i defaultWS).state = Stage.first_letter := by
    rw [hgeti]
  rw [stepG_full _ i w2 c2 hc1 hs1]
  show checkLinkingWordUnlock
      (modifyAt (fun w => { w with state := Stage.full_word, letters := w2, clickable := false })
        (modifyAt (fun w => { w with state := Stage.first_letter, letters := w.letters.set 0 c }) ws i) i) =
    checkLinkingWordUnlock
      (modifyAt (fun w => { w with state := Stage.full_word, letters := w2, clickable := false }) ws i)
  congr 1
  rw [modifyAt_modifyAt]

lemma stepG_frame (ws : List WordState) (i : Nat) (word : List Char) (c : Char) (j : Nat)
    (hji : j ≠ i) :
    ((handleWordClickG ws i word c).getD j defaultWS).letters = (ws.getD j defaultWS).letters ∧
    ((handleWordClickG ws i word c).getD j defaultWS).state = (ws.getD j defaultWS).state ∧
    ((ws.getD j defaultWS).is_linking = false →
      (handleWordClickG ws i word c).getD j defaultWS = ws.getD j defaultWS) := by
  by_cases hc : (ws.getD i defaultWS).clickable = false
  · rw [stepG_noop ws i word c hc]; exact ⟨rfl, rfl, fun _ => rfl⟩
  · have hc' := clickable_true_of_not_false ws i hc
    cases hst : (ws.getD i defaultWS).state with
    | empty =>
      rw [stepG_first ws i word c hc' hst]
      have hgetne : (applyFirstLetterG ws i c).getD j defaultWS = ws.getD j defaultWS :=
        getD_modifyAt_ne _ ws i j hji
      rw [hgetne]
      exact ⟨rfl, rfl, fun _ => rfl⟩
    | first_letter =>
      rw [stepG_full ws i word c hc' hst]
      have hmodne : (modifyAt (fun w => { w with state := Stage.full_word, letters := word, clickable := false }) ws i).getD j defaultWS = ws.getD j defaultWS :=
        getD_modifyAt_ne _ ws i j hji
      have hlet : ((applyFullWordG ws i word).getD j defaultWS).letters =
          ((modifyAt (fun w => { w with state := Stage.full_word, letters := word, clickable := false }) ws i).getD j defaultWS).letters :=
        letters_unlock _ j
      have hsta : ((applyFullWordG ws i word).getD j defaultWS).state =
          ((modifyAt (fun w => { w with state := Stage.full_word, letters := word, clickable := false }) ws i).getD j defaultWS).state :=
        state_unlock _ j
      refine ⟨by rw [hlet, hmodne], by rw [hsta, hmodne], ?_⟩
      intro hnl
      rcases unlock_getD (modifyAt (fun w => { w with state := Stage.full_word, letters := word, clickable := false }) ws i) j with heq | ⟨heq, hlinkj, _⟩
      · show (checkLinkingWordUnlock _).getD j defaultWS = _
        rw [heq, hmodne]
      · rw [hmodne] at hlinkj
        rw [hnl] at hlinkj
        exact absurd hlinkj (by decide)
    | full_word =>
      rw [stepG_done ws i word c hst]; exact ⟨rfl, rfl, fun _ => rfl⟩

lemma stepP_frame (ws : List WordState) (i : Nat) (word : List Char) (j : Nat)
    (hji : j ≠ i) :
    ((handleWordClickP ws i word).getD j defaultWS).letters = (ws.getD j defaultWS).letters ∧
    ((handleWordClickP ws i word).getD j defaultWS).state = (ws.getD j defaultWS).state ∧
    ((ws.getD j defaultWS).is_linking = false →
      (handleWordClickP ws i word).getD j defaultWS = ws.getD j defaultWS) := by
  by_cases hc : (ws.getD i defaultWS).clickable = false
  · rw [stepP_noop ws i word hc]; exact ⟨rfl, rfl, fun _ => rfl⟩
  · have hc' := clickable_true_of_not_false ws i hc
    cases hst : (ws.getD i defaultWS).state with
    | empty =>
      rw [stepP_first ws i word hc' hst]
      have hupd : updateWordState ws i Stage.first_letter word =
          modifyAt (fun w => { w with state := Stage.first_letter, letters := w.letters.set 0 (word.headD '_'), clickable := true }) ws i := by
        simp [updateWordState]
      rw [hupd]
      have hmodne : (modifyAt (fun w => { w with state := Stage.first_letter, letters := w.letters.set 0 (word.headD '_'), clickable := true }) ws i).getD j defaultWS = ws.getD j defaultWS :=
        getD_modifyAt_ne _ ws i j hji
      have hlet := letters_avail (modifyAt (fun w => { w with state := Stage.first_letter, letters := w.letters.set 0 (word.headD '_'), clickable := true }) ws i) j
      have hsta := state_avail (modifyAt (fun w => { w with state := Stage.first_letter, letters := w.letters.set 0 (word.headD '_'), clickable := true }) ws i) j
      refine ⟨by rw [hlet, hmodne], by rw [hsta, hmodne], ?_⟩
      intro hnl
      rcases avail_getD (modifyAt (fun w => { w with state := Stage.first_letter, letters := w.letters.set 0 (word.headD '_'), clickable := true }) ws i) j with heq | ⟨heq, hlinkj⟩
      · rw [heq, hmodne]
      · rw [hmodne] at hlinkj
        rw [hnl] at hlinkj
        exact absurd hlinkj (by decide)
    | first_letter =>
      rw [stepP_full ws i word hc' hst]
      have hupd : updateWordState ws i Stage.full_word word =
          modifyAt (fun w => { w with state := Stage.full_word, letters := word, clickable := false }) ws i := by
        simp [updateWordState]
      rw [hupd]
      have hmodne : (modifyAt (fun w => { w with state := Stage.full_word, letters := word, clickable := false }) ws i).getD j defaultWS = ws.getD j defaultWS :=
        getD_modifyAt_ne _ ws i j hji
      have hlet := letters_avail (modifyAt (fun w => { w with state := Stage.full_word, letters := word, clickable := false }) ws i) j
      have hsta := state_avail (modifyAt (fun w => { w with state := Stage.full_word, letters := word, clickable := false }) ws i) j
      refine ⟨by rw [hlet, hmodne], by rw [hsta, hmodne], ?_⟩
      intro hnl
      rcases avail_getD (modifyAt (fun w => { w with state := Stage.full_word, letters := word, clickable := false }) ws i) j with heq | ⟨heq, hlinkj⟩
      · rw [heq, hmodne]
      · rw [hmodne] at hlinkj
        rw [hnl] at hlinkj
        exact absurd hlinkj (by decide)
    | full_word =>
      rw [stepP_done ws i word hst]; exact ⟨rfl, rfl, fun _ => rfl⟩

lemma hintedEntry_self (li : Option Nat) (wIdx : Nat) (rt : Stage) (w : List Char) :
    hintedEntry li wIdx rt wIdx w =
      { word_index := wIdx
        length := w.length
        is_linking := decide (li = some wIdx)
        letters := toDisplayArray (generateLetterArray w rt)
        state := rt
        clickable := decide (rt = Stage.first_letter) } := by
  simp [hintedEntry]

lemma hintedEntry_other (li : Option Nat) (wIdx i : Nat) (h : i ≠ wIdx) (rt : Stage)
    (w : List Char) :
    hintedEntry li wIdx rt i w =
      { word_index := i
        length := w.length
        is_linking := decide (li = some i)
        letters := toDisplayArray (generateLetterArray w Stage.empty)
        state := Stage.empty
        clickable := decide (¬li = some i) } := by
  simp [hintedEntry, h]

/-! ### Claim theorems -/

/-- C2: for every valid hint request the Hint Policy charges 5 points when
the targeted word is the linking word (the interior word matching the
stored linking word) and 3 points when it is not, the same for both reveal
kinds, and the informational `check_linking_available` kind returns the
fixed confirmation `linking_available = true` at zero cost; the policy is a
pure function, so the check performs no mutation and its result carries no
word-structure payload. -/
theorem c2_hint_penalties (answer lw : List Char) (wi : Nat)
    (hwi : wi < (splitOnSpace answer).length) :
    (chargedPenalty (generateWordSpecificHint answer lw (some (wi : Int)) "first_letter") =
      if linkIndexOf (splitOnSpace answer) lw = some wi then 5 else 3) ∧
    (chargedPenalty (generateWordSpecificHint answer lw (some (wi : Int)) "full_word") =
      if linkIndexOf (splitOnSpace answer) lw = some wi then 5 else 3) ∧
    generateWordSpecificHint answer lw (some (wi : Int)) "check_linking_available" =
      HintResult.linkingCheck true 0 := by
  refine ⟨?_, ?_, ?_⟩
  · rw [gwsh_first answer lw wi hwi]
    rfl
  · rw [gwsh_full answer lw wi hwi]
    rfl
  · exact gwsh_check answer lw (wi : Int) (by omega)

/-- Witness for C2 on the spec example `"BRUNO MARS ATTACKS"` with linking
word `"MARS"` at index 1. -/
theorem c2_hint_penalties_witness :
    (chargedPenalty (generateWordSpecificHint "BRUNO MARS ATTACKS".toList "MARS".toList
        (some ((1 : Nat) : Int)) "first_letter") =
      if linkIndexOf (splitOnSpace "BRUNO MARS ATTACKS".toList) "MARS".toList = some 1 then 5
      else 3) ∧
    (chargedPenalty (generateWordSpecificHint "BRUNO MARS ATTACKS".toList "MARS".toList
        (some ((1 : Nat) : Int)) "full_word") =
      if linkIndexOf (splitOnSpace "BRUNO MARS ATTACKS".toList) "MARS".toList = some 1 then 5
      else 3) ∧
    generateWordSpecificHint "BRUNO MARS ATTACKS".toList "MARS".toList
      (some ((1 : Nat) : Int)) "check_linking_available" = HintResult.linkingCheck true 0 :=
  c2_hint_penalties "BRUNO MARS ATTACKS".toList "MARS".toList 1 (by decide)

/-- C4: a Word Hint request with an out-of-bounds word index (negative or
beyond the word count), or with an unrecognized hint kind, yields a
validation-error result and charges zero penalty; the policy is a pure
function so no state is mutated.  In particular `wordIndex 7` on the 3-word
answer `"BRUNO MARS ATTACKS"` is a validation error charging 0. -/
theorem c4_validation_errors :
    (∀ (answer lw : List Char) (wi : Int) (ht : String),
      (wi < 0 ∨ ((splitOnSpace answer).length : Int) ≤ wi) →
        generateWordSpecificHint answer lw (some wi) ht =
          HintResult.err "Invalid word_index" ∧
        chargedPenalty (generateWordSpecificHint answer lw (some wi) ht) = 0) ∧
    (∀ (answer lw : List Char) (wi : Int) (ht : String),
      ¬(wi < 0 ∨ ((splitOnSpace answer).length : Int) ≤ wi) →
      ht ≠ "first_letter" → ht ≠ "full_word" → ht ≠ "check_linking_available" →
        generateWordSpecificHint answer lw (some wi) ht =
          HintResult.err
            "Invalid hint_type. Must be first_letter, full_word, or check_linking_available" ∧
        chargedPenalty (generateWordSpecificHint answer lw (some wi) ht) = 0) ∧
    (generateWordSpecificHint "BRUNO MARS ATTACKS".toList "MARS".toList (some 7) "full_word" =
        HintResult.err "Invalid word_index" ∧
      chargedPenalty
        (generateWordSpecificHint "BRUNO MARS ATTACKS".toList "MARS".toList (some 7)
          "full_word") = 0) := by
  refine ⟨?_, ?_, ?_, ?_⟩
  · intro answer lw wi ht h
    rw [gwsh_oob answer lw wi ht h]
    exact ⟨rfl, rfl⟩
  · intro answer lw wi ht h h1 h2 h3
    rw [gwsh_badtype answer lw wi ht h h1 h2 h3]
    exact ⟨rfl, rfl⟩
  · decide
  · decide

/-- Witness for C4: a negative index and a bogus hint kind on the 3-word
answer both fail validation and charge nothing. -/
theorem c4_validation_errors_witness :
    (generateWordSpecificHint "BRUNO MARS ATTACKS".toList "MARS".toList (some (-2))
        "first_letter" = HintResult.err "Invalid word_index" ∧
      chargedPenalty (generateWordSpecificHint "BRUNO MARS ATTACKS".toList "MARS".toList
        (some (-2)) "first_letter") = 0) ∧
    (generateWordSpecificHint "BRUNO MARS ATTACKS".toList "MARS".toList (some 0) "bogus" =
        HintResult.err
          "Invalid hint_type. Must be first_letter, full_word, or check_linking_available" ∧
      chargedPenalty (generateWordSpecificHint "BRUNO MARS ATTACKS".toList "MARS".toList
        (some 0) "bogus") = 0) :=
  ⟨c4_validation_errors.1 "BRUNO MARS ATTACKS".toList "MARS".toList (-2) "first_letter"
      (Or.inl (by decide)),
    c4_validation_errors.2.1 "BRUNO MARS ATTACKS".toList "MARS".toList 0 "bogus"
      (by decide) (by decide) (by decide) (by decide)⟩

/-- C10: when no interior word of the answer equals the linking-word text
(for instance when that text appears only as the first or last word), the
policy finds no linking index: Structure Reveal marks every word
non-linking and clickable, and every valid word hint charges the
non-linking penalty of 3 points, even on a word whose text equals the
linking word. -/
theorem c10_no_interior_link (answer lw : List Char)
    (h : ∀ k, k < (splitOnSpace answer).length → 0 < k →
      k + 1 < (splitOnSpace answer).length → (splitOnSpace answer).getD k [] ≠ lw) :
    (∀ j, j < (splitOnSpace answer).length →
      ((wordStructureOf (generateWordSpecificHint answer lw none "structure")).getD j
        defaultWE).is_linking = false ∧
      ((wordStructureOf (generateWordSpecificHint answer lw none "structure")).getD j
        defaultWE).clickable = true) ∧
    (∀ wi : Nat, wi < (splitOnSpace answer).length →
      chargedPenalty (generateWordSpecificHint answer lw (some (wi : Int)) "first_letter") = 3 ∧
      chargedPenalty (generateWordSpecificHint answer lw (some (wi : Int)) "full_word") = 3) := by
  have hnone : linkIndexOf (splitOnSpace answer) lw = none := by
    refine linkIndexOf_eq_none _ lw ?_
    rintro k hk ⟨h1, h2, h3⟩
    exact h k hk h2 h3 h1
  constructor
  · intro j hj
    have hws : wordStructureOf (generateWordSpecificHint answer lw none "structure") =
        jsMapIdx (structureEntry (linkIndexOf (splitOnSpace answer) lw))
          (splitOnSpace answer) := by
      rw [gwsh_structure]
      rfl
    rw [hws, getD_jsMapIdx _ [] defaultWE _ j hj, hnone]
    constructor <;> simp [structureEntry]
  · intro wi hwi
    constructor
    · rw [gwsh_first answer lw wi hwi, hnone]
      simp [chargedPenalty]
    · rw [gwsh_full answer lw wi hwi, hnone]
      simp [chargedPenalty]

/-- Witness for C10: in `"MARS BRUNO"` the text `"MARS"` appears only as
the first word, so nothing is linking and hints on word 0 cost 3. -/
theorem c10_no_interior_link_witness :
    (∀ j, j < (splitOnSpace "MARS BRUNO".toList).length →
      ((wordStructureOf (generateWordSpecificHint "MARS BRUNO".toList "MARS".toList none
        "structure")).getD j defaultWE).is_linking = false ∧
      ((wordStructureOf (generateWordSpecificHint "MARS BRUNO".toList "MARS".toList none
        "structure")).getD j defaultWE).clickable = true) ∧
    (∀ wi : Nat, wi < (splitOnSpace "MARS BRUNO".toList).length →
      chargedPenalty (generateWordSpecificHint "MARS BRUNO".toList "MARS".toList
        (some (wi : Int)) "first_letter") = 3 ∧
      chargedPenalty (generateWordSpecificHint "MARS BRUNO".toList "MARS".toList
        (some (wi : Int)) "full_word") = 3) :=
  c10_no_interior_link "MARS BRUNO".toList "MARS".toList (by decide)

/-- C3: for every answer and in-range word index, a `first_letter` hint
reveals exactly the first alphabetic character of the target word
(upper-cased), leaving leading punctuation shown as itself and every later
character blank-or-punctuation; a `full_word` hint reveals every character;
and every non-targeted word comes back with all its alphabetic characters
as blanks (punctuation pre-revealed), for both hint kinds. -/
theorem c3_letter_reveal (answer lw : List Char) (wi : Nat)
    (hwi : wi < (splitOnSpace answer).length) :
    (∀ p c t, (splitOnSpace answer).getD wi [] = p ++ c :: t →
      (∀ x ∈ p, jsIsLetter x = false) → jsIsLetter c = true →
      ((wordStructureOf (generateWordSpecificHint answer lw (some (wi : Int))
        "first_letter")).getD wi defaultWE).letters = p ++ c.toUpper :: t.map blankChar) ∧
    ((wordStructureOf (generateWordSpecificHint answer lw (some (wi : Int))
      "full_word")).getD wi defaultWE).letters =
        ((splitOnSpace answer).getD wi []).map fullRevealChar ∧
    (∀ j, j < (splitOnSpace answer).length → j ≠ wi →
      ((wordStructureOf (generateWordSpecificHint answer lw (some (wi : Int))
        "first_letter")).getD j defaultWE).letters =
          ((splitOnSpace answer).getD j []).map blankChar ∧
      ((wordStructureOf (generateWordSpecificHint answer lw (some (wi : Int))
        "full_word")).getD j defaultWE).letters =
          ((splitOnSpace answer).getD j []).map blankChar) := by
  have hws1 : wordStructureOf (generateWordSpecificHint answer lw (some (wi : Int))
      "first_letter") =
      jsMapIdx (hintedEntry (linkIndexOf (splitOnSpace answer) lw) wi Stage.first_letter)
        (splitOnSpace answer) := by
    rw [gwsh_first answer lw wi hwi]
    rfl
  have hws2 : wordStructureOf (generateWordSpecificHint answer lw (some (wi : Int))
      "full_word") =
      jsMapIdx (hintedEntry (linkIndexOf (splitOnSpace answer) lw) wi Stage.full_word)
        (splitOnSpace answer) := by
    rw [gwsh_full answer lw wi hwi]
    rfl
  refine ⟨?_, ?_, ?_⟩
  · intro p c t hdec hp hcl
    rw [hws1, getD_jsMapIdx _ [] defaultWE _ wi hwi, hintedEntry_self, hdec]
    exact display_first p hp c hcl t
  · rw [hws2, getD_jsMapIdx _ [] defaultWE _ wi hwi, hintedEntry_self]
    exact display_full _
  · intro j hj hji
    constructor
    · rw [hws1, getD_jsMapIdx _ [] defaultWE _ j hj,
        hintedEntry_other (linkIndexOf (splitOnSpace answer) lw) wi j hji]
      exact display_empty _
    · rw [hws2, getD_jsMapIdx _ [] defaultWE _ j hj,
        hintedEntry_other (linkIndexOf (splitOnSpace answer) lw) wi j hji]
      exact display_empty _

/-- Witness for C3 on `"'TIS A TEST"`: the first-letter hint on word 0
reveals only the `T` after the leading apostrophe, the full-word hint on
word 0 shows every character, and the untargeted word 1 stays blank. -/
theorem c3_letter_reveal_witness :
    ((wordStructureOf (generateWordSpecificHint "'TIS A TEST".toList "A".toList
      (some ((0 : Nat) : Int)) "first_letter")).getD 0 defaultWE).letters =
        ['\''] ++ 'T'.toUpper :: ("IS".toList.map blankChar) ∧
    ((wordStructureOf (generateWordSpecificHint "'TIS A TEST".toList "A".toList
      (some ((0 : Nat) : Int)) "full_word")).getD 0 defaultWE).letters =
        ("'TIS".toList.map fullRevealChar) ∧
    ((wordStructureOf (generateWordSpecificHint "'TIS A TEST".toList "A".toList
      (some ((0 : Nat) : Int)) "first_letter")).getD 1 defaultWE).letters =
        ("A".toList.map blankChar) := by
  have h := c3_letter_reveal "'TIS A TEST".toList "A".toList 0 (by decide)
  refine ⟨h.1 ['\''] 'T' "IS".toList (by decide) (by decide) (by decide), ?_, ?_⟩
  · have h2 := h.2.1
    rw [show (splitOnSpace "'TIS A TEST".toList).getD 0 [] = "'TIS".toList from by decide] at h2
    exact h2
  · have h3 := (h.2.2 1 (by decide) (by decide)).1
    rw [show (splitOnSpace "'TIS A TEST".toList).getD 1 [] = "A".toList from by decide] at h3
    exact h3

/-- C5: for a valid answer (nonempty, space-free words joined by single
spaces) whose linking word occurs at exactly one interior position `k`,
Structure Reveal returns one entry per whitespace-separated word, and each
entry carries the word's character count, `is_linking` exactly at `k`,
stage `empty`, the all-placeholder letter sequence with punctuation
pre-revealed, `selectable` (clickable) for every non-linking word only, and
a fixed penalty of 5 points. -/
theorem c5_structure_contents (ws : List (List Char)) (lw : List Char)
    (hne : ws ≠ []) (hwords : ∀ w ∈ ws, w ≠ [] ∧ ∀ c ∈ w, c ≠ ' ')
    (k : Nat) (hk1 : 0 < k) (hk2 : k + 1 < ws.length) (hk3 : ws.getD k [] = lw)
    (huniq : ∀ j, j < ws.length → 0 < j → j + 1 < ws.length → ws.getD j [] = lw → j = k) :
    (∃ es, generateWordSpecificHint (joinWords ws) lw none "structure" =
        HintResult.structureReveal es 5) ∧
    (wordStructureOf (generateWordSpecificHint (joinWords ws) lw none "structure")).length =
      ws.length ∧
    ∀ i, i < ws.length →
      ((wordStructureOf (generateWordSpecificHint (joinWords ws) lw none "structure")).getD i
        defaultWE).word_index = i ∧
      ((wordStructureOf (generateWordSpecificHint (joinWords ws) lw none "structure")).getD i
        defaultWE).length = (ws.getD i []).length ∧
      ((wordStructureOf (generateWordSpecificHint (joinWords ws) lw none "structure")).getD i
        defaultWE).is_linking = decide (i = k) ∧
      ((wordStructureOf (generateWordSpecificHint (joinWords ws) lw none "structure")).getD i
        defaultWE).state = Stage.empty ∧
      ((wordStructureOf (generateWordSpecificHint (joinWords ws) lw none "structure")).getD i
        defaultWE).letters = (ws.getD i []).map blankChar ∧
      ((wordStructureOf (generateWordSpecificHint (joinWords ws) lw none "structure")).getD i
        defaultWE).clickable = decide (¬i = k) := by
  have hsplit : splitOnSpace (joinWords ws) = ws :=
    splitOnSpace_joinWords ws hne (fun w hw => (hwords w hw).2)
  have hlink : linkIndexOf ws lw = some k :=
    linkIndexOf_eq_some ws lw k ⟨hk3, hk1, hk2⟩
      (fun j h1 h2 h3 => huniq j (by omega) h2 h3 h1)
  have hr : generateWordSpecificHint (joinWords ws) lw none "structure" =
      HintResult.structureReveal (jsMapIdx (structureEntry (some k)) ws) 5 := by
    rw [gwsh_structure, hsplit, hlink]
  have hwso : wordStructureOf (generateWordSpecificHint (joinWords ws) lw none "structure") =
      jsMapIdx (structureEntry (some k)) ws := by
    rw [hr]
    rfl
  refine ⟨⟨_, hr⟩, ?_, ?_⟩
  · rw [hwso]
    exact length_jsMapIdx _ ws
  · intro i hi
    rw [hwso, getD_jsMapIdx _ [] defaultWE ws i hi]
    refine ⟨rfl, rfl, ?_, rfl, ?_, ?_⟩
    · show decide (some k = some i) = decide (i = k)
      simp only [decide_eq_decide, Option.some.injEq]
      exact eq_comm
    · exact display_empty _
    · show decide (¬some k = some i) = decide (¬i = k)
      simp only [decide_eq_decide, Option.some.injEq]
      exact not_congr eq_comm

/-- Witness for C5 on the spec example: 3 words of lengths 5, 4, 7 with the
linking word at index 1. -/
theorem c5_structure_contents_witness :
    (∃ es, generateWordSpecificHint
        (joinWords ["BRUNO".toList, "MARS".toList, "ATTACKS".toList]) "MARS".toList none
        "structure" = HintResult.structureReveal es 5) ∧
    (wordStructureOf (generateWordSpecificHint
      (joinWords ["BRUNO".toList, "MARS".toList, "ATTACKS".toList]) "MARS".toList none
      "structure")).length = (["BRUNO".toList, "MARS".toList, "ATTACKS".toList] :
        List (List Char)).length ∧
    ∀ i, i < (["BRUNO".toList, "MARS".toList, "ATTACKS".toList] : List (List Char)).length →
      ((wordStructureOf (generateWordSpecificHint
        (joinWords ["BRUNO".toList, "MARS".toList, "ATTACKS".toList]) "MARS".toList none
        "structure")).getD i defaultWE).word_index = i ∧
      ((wordStructureOf (generateWordSpecificHint
        (joinWords ["BRUNO".toList, "MARS".toList, "ATTACKS".toList]) "MARS".toList none
        "structure")).getD i defaultWE).length =
          ((["BRUNO".toList, "MARS".toList, "ATTACKS".toList] :
            List (List Char)).getD i []).length ∧
      ((wordStructureOf (generateWordSpecificHint
        (joinWords ["BRUNO".toList, "MARS".toList, "ATTACKS".toList]) "MARS".toList none
        "structure")).getD i defaultWE).is_linking = decide (i = 1) ∧
      ((wordStructureOf (generateWordSpecificHint
        (joinWords ["BRUNO".toList, "MARS".toList, "ATTACKS".toList]) "MARS".toList none
        "structure")).getD i defaultWE).state = Stage.empty ∧
      ((wordStructureOf (generateWordSpecificHint
        (joinWords ["BRUNO".toList, "MARS".toList, "ATTACKS".toList]) "MARS".toList none
        "structure")).getD i defaultWE).letters =
          ((["BRUNO".toList, "MARS".toList, "ATTACKS".toList] :
            List (List Char)).getD i []).map blankChar ∧
      ((wordStructureOf (generateWordSpecificHint
        (joinWords ["BRUNO".toList, "MARS".toList, "ATTACKS".toList]) "MARS".toList none
        "structure")).getD i defaultWE).clickable = decide (¬i = 1) :=
  c5_structure_contents ["BRUNO".toList, "MARS".toList, "ATTACKS".toList] "MARS".toList
    (by decide) (by decide) 1 (by decide) (by decide) (by decide) (by decide)

/-- C6 as stated is false on the client tracker: after
`initializeWordStates` for the structure reveal of `"DON'T STOP NOW"`
(linking word `"STOP"`), the apostrophe of `"DON'T"` — a punctuation
character, shown revealed in the policy's own response — is displayed as
the placeholder `'_'` at position 3 of word 0. -/
theorem c6_client_counterexample :
    ((initializeWordStates (wordStructureOf (generateWordSpecificHint
      "DON'T STOP NOW".toList "STOP".toList none "structure"))).getD 0
        defaultWS).letters.getD 3 'X' = '_' ∧
    ((wordStructureOf (generateWordSpecificHint "DON'T STOP NOW".toList "STOP".toList none
      "structure")).getD 0 defaultWE).letters.getD 3 'X' = '\'' ∧
    ("DON'T".toList).getD 3 'X' = '\'' ∧ jsIsLetter '\'' = false := by
  decide

/-- C6 (amended): in every Hint Policy response — structure reveal and both
word-hint kinds, i.e. at every reveal stage — every punctuation (non-letter)
character of every word of the answer is displayed as itself, never as a
placeholder.  The client tracker, by contrast, initializes every character
as a placeholder. -/
theorem c6_policy_punctuation (answer lw : List Char) :
    (∀ j, j < (splitOnSpace answer).length → ∀ pos,
      jsIsLetter (((splitOnSpace answer).getD j []).getD pos ' ') = false →
      (((wordStructureOf (generateWordSpecificHint answer lw none "structure")).getD j
        defaultWE).letters).getD pos ' ' = ((splitOnSpace answer).getD j []).getD pos ' ') ∧
    (∀ wi : Nat, wi < (splitOnSpace answer).length →
      ∀ j, j < (splitOnSpace answer).length → ∀ pos,
      jsIsLetter (((splitOnSpace answer).getD j []).getD pos ' ') = false →
      (((wordStructureOf (generateWordSpecificHint answer lw (some (wi : Int))
        "first_letter")).getD j defaultWE).letters).getD pos ' ' =
          ((splitOnSpace answer).getD j []).getD pos ' ' ∧
      (((wordStructureOf (generateWordSpecificHint answer lw (some (wi : Int))
        "full_word")).getD j defaultWE).letters).getD pos ' ' =
          ((splitOnSpace answer).getD j []).getD pos ' ') := by
  constructor
  · intro j hj pos hpos
    have hws : wordStructureOf (generateWordSpecificHint answer lw none "structure") =
        jsMapIdx (structureEntry (linkIndexOf (splitOnSpace answer) lw))
          (splitOnSpace answer) := by
      rw [gwsh_structure]
      rfl
    rw [hws, getD_jsMapIdx _ [] defaultWE _ j hj]
    exact display_punct Stage.empty _ false pos hpos
  · intro wi hwi j hj pos hpos
    have hws1 : wordStructureOf (generateWordSpecificHint answer lw (some (wi : Int))
        "first_letter") =
        jsMapIdx (hintedEntry (linkIndexOf (splitOnSpace answer) lw) wi Stage.first_letter)
          (splitOnSpace answer) := by
      rw [gwsh_first answer lw wi hwi]
      rfl
    have hws2 : wordStructureOf (generateWordSpecificHint answer lw (some (wi : Int))
        "full_word") =
        jsMapIdx (hintedEntry (linkIndexOf (splitOnSpace answer) lw) wi Stage.full_word)
          (splitOnSpace answer) := by
      rw [gwsh_full answer lw wi hwi]
      rfl
    constructor
    · rw [hws1, getD_jsMapIdx _ [] defaultWE _ j hj]
      by_cases hji : j = wi
      · subst hji
        rw [hintedEntry_self]
        exact display_punct Stage.first_letter _ false pos hpos
      · rw [hintedEntry_other (linkIndexOf (splitOnSpace answer) lw) wi j hji]
        exact display_punct Stage.empty _ false pos hpos
    · rw [hws2, getD_jsMapIdx _ [] defaultWE _ j hj]
      by_cases hji : j = wi
      · subst hji
        rw [hintedEntry_self]
        exact display_punct Stage.full_word _ false pos hpos
      · rw [hintedEntry_other (linkIndexOf (splitOnSpace answer) lw) wi j hji]
        exact display_punct Stage.empty _ false pos hpos

/-- Witness for the amended C6 on `"DON'T STOP NOW"`: the apostrophe is
shown in the structure response and in both word-hint responses targeting
word 1. -/
theorem c6_policy_punctuation_witness :
    (((wordStructureOf (generateWordSpecificHint "DON'T STOP NOW".toList "STOP".toList none
      "structure")).getD 0 defaultWE).letters).getD 3 ' ' =
        ((splitOnSpace "DON'T STOP NOW".toList).getD 0 []).getD 3 ' ' ∧
    (((wordStructureOf (generateWordSpecificHint "DON'T STOP NOW".toList "STOP".toList
      (some ((1 : Nat) : Int)) "first_letter")).getD 0 defaultWE).letters).getD 3 ' ' =
        ((splitOnSpace "DON'T STOP NOW".toList).getD 0 []).getD 3 ' ' ∧
    (((wordStructureOf (generateWordSpecificHint "DON'T STOP NOW".toList "STOP".toList
      (some ((1 : Nat) : Int)) "full_word")).getD 0 defaultWE).letters).getD 3 ' ' =
        ((splitOnSpace "DON'T STOP NOW".toList).getD 0 []).getD 3 ' ' := by
  have h := c6_policy_punctuation "DON'T STOP NOW".toList "STOP".toList
  have h2 := h.2 1 (by decide) 0 (by decide) 3 (by decide)
  exact ⟨h.1 0 (by decide) 3 (by decide), h2.1, h2.2⟩

/-- C1: in the client Reveal State Tracker (both variants), starting from
`initializeWordStates` of a structure response with at most one linking
entry (and a non-linking entry whenever a linking one exists), after every
sequence of word clicks the linking word is selectable exactly when every
non-linking word's stage is `full_word` — so its flag is false from
initialization, stays false until the click that brings the last
non-linking word to `full_word`, and is true immediately after, in every
hinting order — and every non-linking word is selectable exactly while its
stage is not `full_word`, hence permanently non-selectable afterwards. -/
theorem c1_linking_gate (entries : List WordEntry)
    (hone : ∀ i, i < entries.length → ∀ j, j < entries.length →
      (entries.getD i defaultWE).is_linking = true →
      (entries.getD j defaultWE).is_linking = true → i = j)
    (hnon : (∃ i, i < entries.length ∧ (entries.getD i defaultWE).is_linking = true) →
      ∃ j, j < entries.length ∧ (entries.getD j defaultWE).is_linking = false)
    (evsG : List GEvent) (evsP : List PEvent) :
    (linkOK (runG (initializeWordStates entries) evsG) ∧
      nonLinkOK (runG (initializeWordStates entries) evsG)) ∧
    (linkOK (runP (initializeWordStates entries) evsP) ∧
      nonLinkOK (runP (initializeWordStates entries) evsP)) := by
  have h0 := initializeWordStates_trackerOK entries hone hnon
  have hG := runG_preserves evsG _ h0
  have hP := runP_preserves evsP _ h0
  exact ⟨⟨hG.2.2.2, hG.2.2.1⟩, ⟨hP.2.2.2, hP.2.2.1⟩⟩

/-- Witness for C1: the real structure response for the spec example, with
a full play-through (both non-linking words, then the linking word) in both
client variants. -/
theorem c1_linking_gate_witness :
    (linkOK (runG (initializeWordStates (wordStructureOf (generateWordSpecificHint
        "BRUNO MARS ATTACKS".toList "MARS".toList none "structure")))
        [⟨0, "BRUNO".toList, 'B'⟩, ⟨0, "BRUNO".toList, 'B'⟩, ⟨2, "ATTACKS".toList, 'A'⟩,
          ⟨2, "ATTACKS".toList, 'A'⟩, ⟨1, "MARS".toList, 'M'⟩, ⟨1, "MARS".toList, 'M'⟩]) ∧
      nonLinkOK (runG (initializeWordStates (wordStructureOf (generateWordSpecificHint
        "BRUNO MARS ATTACKS".toList "MARS".toList none "structure")))
        [⟨0, "BRUNO".toList, 'B'⟩, ⟨0, "BRUNO".toList, 'B'⟩, ⟨2, "ATTACKS".toList, 'A'⟩,
          ⟨2, "ATTACKS".toList, 'A'⟩, ⟨1, "MARS".toList, 'M'⟩, ⟨1, "MARS".toList, 'M'⟩])) ∧
    (linkOK (runP (initializeWordStates (wordStructureOf (generateWordSpecificHint
        "BRUNO MARS ATTACKS".toList "MARS".toList none "structure")))
        [⟨0, "BRUNO".toList⟩, ⟨0, "BRUNO".toList⟩, ⟨2, "ATTACKS".toList⟩,
          ⟨2, "ATTACKS".toList⟩, ⟨1, "MARS".toList⟩, ⟨1, "MARS".toList⟩]) ∧
      nonLinkOK (runP (initializeWordStates (wordStructureOf (generateWordSpecificHint
        "BRUNO MARS ATTACKS".toList "MARS".toList none "structure")))
        [⟨0, "BRUNO".toList⟩, ⟨0, "BRUNO".toList⟩, ⟨2, "ATTACKS".toList⟩,
          ⟨2, "ATTACKS".toList⟩, ⟨1, "MARS".toList⟩, ⟨1, "MARS".toList⟩])) :=
  c1_linking_gate
    (wordStructureOf (generateWordSpecificHint "BRUNO MARS ATTACKS".toList "MARS".toList
      none "structure"))
    (by decide) (fun _ => ⟨0, by decide, by decide⟩) _ _

/-- C7: in the game.js tracker every word's reveal stage moves only forward
along `empty → first_letter → full_word`: one click leaves each word's
stage unchanged or advances it one step along the chain (so `empty` can
move only to `first_letter` and `first_letter` only to `full_word`), a word
at `full_word` stays at `full_word` (terminal), and across any sequence of
clicks the stage rank never decreases — no operation moves a stage backward
toward `empty`. -/
theorem c7_stage_monotone :
    (∀ (ws : List WordState) (i : Nat) (word : List Char) (c : Char) (j : Nat),
      (((handleWordClickG ws i word c).getD j defaultWS).state =
          (ws.getD j defaultWS).state ∨
        ((handleWordClickG ws i word c).getD j defaultWS).state =
          stageSucc (ws.getD j defaultWS).state) ∧
      ((ws.getD j defaultWS).state = Stage.full_word →
        ((handleWordClickG ws i word c).getD j defaultWS).state = Stage.full_word)) ∧
    (∀ (ws : List WordState) (evs : List GEvent) (j : Nat),
      stageRank (ws.getD j defaultWS).state ≤
        stageRank ((runG ws evs).getD j defaultWS).state) := by
  constructor
  · intro ws i word c j
    refine ⟨stepG_forward ws i word c j, ?_⟩
    intro hf
    rcases stepG_forward ws i word c j with h | h
    · rw [h, hf]
    · rw [h, hf]
      rfl
  · intro ws evs j
    exact runG_stage_mono evs ws j

/-- Witness for C7: a fully revealed word stays fully revealed when clicked
again, and the rank inequality holds on a concrete run. -/
theorem c7_stage_monotone_witness :
    ((handleWordClickG [⟨0, 4, false, Stage.full_word, "MARS".toList, false⟩] 0
      "MARS".toList 'M').getD 0 defaultWS).state = Stage.full_word ∧
    stageRank (([⟨0, 4, false, Stage.full_word, "MARS".toList, false⟩] :
        List WordState).getD 0 defaultWS).state ≤
      stageRank ((runG [⟨0, 4, false, Stage.full_word, "MARS".toList, false⟩]
        [⟨0, "MARS".toList, 'M'⟩]).getD 0 defaultWS).state :=
  ⟨(c7_stage_monotone.1 [⟨0, 4, false, Stage.full_word, "MARS".toList, false⟩] 0
      "MARS".toList 'M' 0).2 (by decide),
    c7_stage_monotone.2 [⟨0, 4, false, Stage.full_word, "MARS".toList, false⟩]
      [⟨0, "MARS".toList, 'M'⟩] 0⟩

/-- C8: clicking a word at stage `empty` (a `first_letter` hint) and then
clicking it again (a `full_word` hint) leaves that word's displayed letters
and stage equal to those produced by the `full_word` update block alone on
the original state: idempotent convergence to the fully revealed word. -/
theorem c8_first_then_full (ws : List WordState) (i : Nat) (w1 w2 : List Char) (c c2 : Char)
    (hc : (ws.getD i defaultWS).clickable = true)
    (hs : (ws.getD i defaultWS).state = Stage.empty) :
    ((handleWordClickG (handleWordClickG ws i w1 c) i w2 c2).getD i defaultWS).letters =
      ((applyFullWordG ws i w2).getD i defaultWS).letters ∧
    ((handleWordClickG (handleWordClickG ws i w1 c) i w2 c2).getD i defaultWS).state =
      ((applyFullWordG ws i w2).getD i defaultWS).state := by
  rw [firstThenFull_eq_full ws i w1 w2 c c2 hc hs]
  exact ⟨rfl, rfl⟩

/-- Witness for C8 on the initialized spec example, hinting word 0. -/
theorem c8_first_then_full_witness :
    ((handleWordClickG (handleWordClickG (initializeWordStates (wordStructureOf
        (generateWordSpecificHint "BRUNO MARS ATTACKS".toList "MARS".toList none
          "structure"))) 0 "BRUNO".toList 'B') 0 "BRUNO".toList 'B').getD 0
      defaultWS).letters =
      ((applyFullWordG (initializeWordStates (wordStructureOf (generateWordSpecificHint
        "BRUNO MARS ATTACKS".toList "MARS".toList none "structure"))) 0
        "BRUNO".toList).getD 0 defaultWS).letters ∧
    ((handleWordClickG (handleWordClickG (initializeWordStates (wordStructureOf
        (generateWordSpecificHint "BRUNO MARS ATTACKS".toList "MARS".toList none
          "structure"))) 0 "BRUNO".toList 'B') 0 "BRUNO".toList 'B').getD 0
      defaultWS).state =
      ((applyFullWordG (initializeWordStates (wordStructureOf (generateWordSpecificHint
        "BRUNO MARS ATTACKS".toList "MARS".toList none "structure"))) 0
        "BRUNO".toList).getD 0 defaultWS).state :=
  c8_first_then_full (initializeWordStates (wordStructureOf (generateWordSpecificHint
    "BRUNO MARS ATTACKS".toList "MARS".toList none "structure"))) 0 "BRUNO".toList
    "BRUNO".toList 'B' 'B' (by decide) (by decide)

/-- C9: a word click updates only the targeted word's letters and stage:
for every other index the letters and stage are unchanged (in particular,
revealing the linking word never reduces any other word's reveal stage),
and every other non-linking entry is entirely unchanged — only the linking
word's selectable flag is recomputed.  This holds for both client
variants. -/
theorem c9_click_frame (ws : List WordState) (i : Nat) (word : List Char) (c : Char)
    (j : Nat) (hji : j ≠ i) :
    (((handleWordClickG ws i word c).getD j defaultWS).letters =
        (ws.getD j defaultWS).letters ∧
      ((handleWordClickG ws i word c).getD j defaultWS).state =
        (ws.getD j defaultWS).state ∧
      ((ws.getD j defaultWS).is_linking = false →
        (handleWordClickG ws i word c).getD j defaultWS = ws.getD j defaultWS)) ∧
    (((handleWordClickP ws i word).getD j defaultWS).letters =
        (ws.getD j defaultWS).letters ∧
      ((handleWordClickP ws i word).getD j defaultWS).state =
        (ws.getD j defaultWS).state ∧
      ((ws.getD j defaultWS).is_linking = false →
        (handleWordClickP ws i word).getD j defaultWS = ws.getD j defaultWS)) :=
  ⟨stepG_frame ws i word c j hji, stepP_frame ws i word j hji⟩

/-- Witness for C9: clicking word 0 of the initialized spec example leaves
word 2 (non-linking, distinct from the target) untouched in both
variants. -/
theorem c9_click_frame_witness :
    (((handleWordClickG (initializeWordStates (wordStructureOf (generateWordSpecificHint
        "BRUNO MARS ATTACKS".toList "MARS".toList none "structure"))) 0 "BRUNO".toList
        'B').getD 2 defaultWS).letters =
        ((initializeWordStates (wordStructureOf (generateWordSpecificHint
          "BRUNO MARS ATTACKS".toList "MARS".toList none "structure"))).getD 2
          defaultWS).letters ∧
      ((handleWordClickG (initializeWordStates (wordStructureOf (generateWordSpecificHint
        "BRUNO MARS ATTACKS".toList "MARS".toList none "structure"))) 0 "BRUNO".toList
        'B').getD 2 defaultWS).state =
        ((initializeWordStates (wordStructureOf (generateWordSpecificHint
          "BRUNO MARS ATTACKS".toList "MARS".toList none "structure"))).getD 2
          defaultWS).state ∧
      (((initializeWordStates (wordStructureOf (generateWordSpecificHint
          "BRUNO MARS ATTACKS".toList "MARS".toList none "structure"))).getD 2
          defaultWS).is_linking = false →
        (handleWordClickG (initializeWordStates (wordStructureOf (generateWordSpecificHint
          "BRUNO MARS ATTACKS".toList "MARS".toList none "structure"))) 0 "BRUNO".toList
          'B').getD 2 defaultWS =
          (initializeWordStates (wordStructureOf (generateWordSpecificHint
            "BRUNO MARS ATTACKS".toList "MARS".toList none "structure"))).getD 2
            defaultWS)) ∧
    (((handleWordClickP (initializeWordStates (wordStructureOf (generateWordSpecificHint
        "BRUNO MARS ATTACKS".toList "MARS".toList none "structure"))) 0
        "BRUNO".toList).getD 2 defaultWS).letters =
        ((initializeWordStates (wordStructureOf (generateWordSpecificHint
          "BRUNO MARS ATTACKS".toList "MARS".toList none "structure"))).getD 2
          defaultWS).letters ∧
      ((handleWordClickP (initializeWordStates (wordStructureOf (generateWordSpecificHint
        "BRUNO MARS ATTACKS".toList "MARS".toList none "structure"))) 0
        "BRUNO".toList).getD 2 defaultWS).state =
        ((initializeWordStates (wordStructureOf (generateWordSpecificHint
          "BRUNO MARS ATTACKS".toList "MARS".toList none "structure"))).getD 2
          defaultWS).state ∧
      (((initializeWordStates (wordStructureOf (generateWordSpecificHint
          "BRUNO MARS ATTACKS".toList "MARS".toList none "structure"))).getD 2
          defaultWS).is_linking = false →
        (handleWordClickP (initializeWordStates (wordStructureOf (generateWordSpecificHint
          "BRUNO MARS ATTACKS".toList "MARS".toList none "structure"))) 0
          "BRUNO".toList).getD 2 defaultWS =
          (initializeWordStates (wordStructureOf (generateWordSpecificHint
            "BRUNO MARS ATTACKS".toList "MARS".toList none "structure"))).getD 2
            defaultWS)) :=
  c9_click_frame (initializeWordStates (wordStructureOf (generateWordSpecificHint
    "BRUNO MARS ATTACKS".toList "MARS".toList none "structure"))) 0 "BRUNO".toList 'B' 2
    (by decide)
